import Mathlib

/-!
Verification of the `intelligent-home` ML-models repository against its
natural-language specification.

Python fragments of the repository are shallowly embedded into Lean:
floating-point numbers are modelled as exact rationals (`ℚ`), numpy arrays
as lists, pandas frames as lists of per-row records, Python dicts as
association lists, and fallible code as `Except`/`Option`.  Values that the
source obtains from an external effect (trained scikit-learn model outputs,
`np.random` draws, `datetime.now()`, file checksums, `np.sqrt`) are passed
in as explicit oracle parameters.  Each embedded definition names the source
file and lines it is translated from.
-/

/-! ## Shared numeric helpers -/

/-- Sum of a list of rationals (`np.sum` / Python `sum`). -/
def sumQ (l : List ℚ) : ℚ := l.foldl (· + ·) 0

/-- Arithmetic mean (`np.mean`); division by zero yields `0` in `ℚ`
(the source never takes a mean of an empty array on the paths modelled here). -/
def meanQ (l : List ℚ) : ℚ := sumQ l / l.length

/-- Elementwise vector addition (`numpy +` on equal-shaped 1-d arrays). -/
def vecAdd (a b : List ℚ) : List ℚ := List.zipWith (· + ·) a b

/-- Elementwise vector subtraction (`numpy -`). -/
def vecSub (a b : List ℚ) : List ℚ := List.zipWith (· - ·) a b

/-- Scalar multiple of a vector (`scalar * array`). -/
def vecScale (c : ℚ) (a : List ℚ) : List ℚ := a.map (fun x => c * x)

/-- Dot product of two equal-length vectors (`np.dot` on 1-d arrays). -/
def dotQ (a b : List ℚ) : ℚ := sumQ (List.zipWith (· * ·) a b)

/-- Python dict update (`d.update(new)` / `d[k] = v` repeatedly): existing keys
keep their position and take the new value, new keys are appended in order. -/
def dictUpdate {α : Type} (old new : List (String × α)) : List (String × α) :=
  old.map (fun p => (p.1, ((new.find? (fun q => q.1 == p.1)).map Prod.snd).getD p.2)) ++
    new.filter (fun q => (old.find? (fun p => p.1 == q.1)).isNone)

/-! ## C1: the two anomaly-severity schemes

Embedded from `src/ml-models/src/models/anomaly_detection.py` lines 169-181
(`AnomalyDetectionModel.detect_anomalies`) and
`src/ml-models/src/training/anomaly_detection_trainer.py` lines 114-122
(`AnomalyDetectionTrainer.calculate_severity`). -/

namespace AnomalyDetectionModel

/-- Severity bucketing of `detect_anomalies`: the source initialises the
`severity` column to `"normal"` and then overwrites it by three successive
`.loc` masked assignments (`< -0.5` → low, `< -0.7` → medium,
`< -0.9` → high), the last matching assignment winning.  Per-row embedding of
that assignment sequence. -/
def severityOf (score : ℚ) : String :=
  let sev := "normal"
  let sev := if score < -0.5 then "low" else sev
  let sev := if score < -0.7 then "medium" else sev
  if score < -0.9 then "high" else sev

/-- Row of the result frame of `detect_anomalies`. -/
structure ResultRow where
  is_anomaly : Bool
  anomaly_score : ℚ
  severity : String
  deriving DecidableEq

/-- Embedding of `AnomalyDetectionModel.detect_anomalies`.  The underlying
isolation-forest outputs (`predictions`, `scores` from `self.predict`) are
oracle inputs; `threshold`, when given, overrides the label rule by
`scores < threshold`. -/
def detect_anomalies (predictions : List Int) (scores : List ℚ)
    (threshold : Option ℚ) : List ResultRow :=
  List.zipWith
    (fun p s =>
      { is_anomaly := match threshold with
          | none => p == -1
          | some t => s < t
        anomaly_score := s
        severity := severityOf s })
    predictions scores

end AnomalyDetectionModel

namespace AnomalyDetectionTrainer

/-- Embedding of `AnomalyDetectionTrainer.calculate_severity` (trainer file,
lines 114-122): `> -0.1` → low, `> -0.3` → medium, `> -0.5` → high,
else critical. -/
def calculate_severity (score : ℚ) : String :=
  if score > -0.1 then "low"
  else if score > -0.3 then "medium"
  else if score > -0.5 then "high"
  else "critical"

end AnomalyDetectionTrainer

/-! ## C5: configuration registry

Embedded from `src/ml-models/src/config/model_config.py` (`ModelConfig`). -/

/-- Configuration value: the presets hold ints, float literals (embedded as
the same decimal rationals), int lists and string lists. -/
inductive CVal where
  | nat (n : Nat)
  | rat (q : ℚ)
  | natList (l : List Nat)
  | strList (l : List String)
  deriving DecidableEq

/-- A configuration map, in the literal key order of the source dict. -/
abbrev Config := List (String × CVal)

namespace ModelConfig

/-- Literal `ModelConfig.ENERGY_FORECASTING` preset. -/
def ENERGY_FORECASTING : Config :=
  [("sequence_length", .nat 24), ("prediction_horizon", .nat 12),
   ("hidden_units", .natList [128, 64, 32]), ("dropout_rate", .rat 0.2),
   ("learning_rate", .rat 0.001), ("batch_size", .nat 32),
   ("epochs", .nat 100), ("early_stopping_patience", .nat 10)]

/-- Literal `ModelConfig.ANOMALY_DETECTION` preset. -/
def ANOMALY_DETECTION : Config :=
  [("contamination", .rat 0.1), ("n_estimators", .nat 100),
   ("max_samples", .nat 256), ("threshold", .rat 0.8),
   ("window_size", .nat 50)]

/-- Literal `ModelConfig.BEHAVIOR_PREDICTION` preset. -/
def BEHAVIOR_PREDICTION : Config :=
  [("sequence_length", .nat 48), ("hidden_units", .natList [256, 128, 64]),
   ("dropout_rate", .rat 0.3), ("learning_rate", .rat 0.0005),
   ("batch_size", .nat 64), ("epochs", .nat 150)]

/-- Literal `ModelConfig.OCCUPANCY_DETECTION` preset. -/
def OCCUPANCY_DETECTION : Config :=
  [("n_estimators", .nat 200), ("max_depth", .nat 10),
   ("min_samples_split", .nat 5), ("min_samples_leaf", .nat 2),
   ("features", .strList ["motion", "temperature", "humidity", "light", "sound"])]

/-- Literal `ModelConfig.PREDICTIVE_MAINTENANCE` preset. -/
def PREDICTIVE_MAINTENANCE : Config :=
  [("sequence_length", .nat 100), ("threshold", .rat 0.7),
   ("warning_threshold", .rat 0.5),
   ("features", .strList ["usage_hours", "error_count", "temperature", "vibration"])]

/-- Embedding of `ModelConfig.get_config`: a literal dict lookup with default
`{}` (`configs.get(model_type, {})`). -/
def get_config (model_type : String) : Config :=
  let configs : List (String × Config) :=
    [("energy_forecasting", ENERGY_FORECASTING),
     ("anomaly_detection", ANOMALY_DETECTION),
     ("behavior_prediction", BEHAVIOR_PREDICTION),
     ("occupancy_detection", OCCUPANCY_DETECTION),
     ("predictive_maintenance", PREDICTIVE_MAINTENANCE)]
  ((configs.find? (fun p => p.1 == model_type)).map Prod.snd).getD []

end ModelConfig

/-! Spec-side literals for C5, written from the table in spec §4.1 (to be
compared with the source-side presets above). -/

/-- §4.1 table rows for the `energy_forecasting` family. -/
def specEnergyForecasting : Config :=
  [("sequence_length", .nat 24), ("prediction_horizon", .nat 12),
   ("hidden_units", .natList [128, 64, 32]), ("dropout_rate", .rat 0.2),
   ("learning_rate", .rat 0.001), ("batch_size", .nat 32),
   ("epochs", .nat 100), ("early_stopping_patience", .nat 10)]

/-- §4.1 table rows for the `anomaly_detection` family. -/
def specAnomalyDetection : Config :=
  [("contamination", .rat 0.1), ("n_estimators", .nat 100),
   ("max_samples", .nat 256), ("threshold", .rat 0.8),
   ("window_size", .nat 50)]

/-- §4.1 table rows for the `behavior_prediction` family. -/
def specBehaviorPrediction : Config :=
  [("sequence_length", .nat 48), ("hidden_units", .natList [256, 128, 64]),
   ("dropout_rate", .rat 0.3), ("learning_rate", .rat 0.0005),
   ("batch_size", .nat 64), ("epochs", .nat 150)]

/-- §4.1 table rows for the `occupancy_detection` family. -/
def specOccupancyDetection : Config :=
  [("n_estimators", .nat 200), ("max_depth", .nat 10),
   ("min_samples_split", .nat 5), ("min_samples_leaf", .nat 2),
   ("features", .strList ["motion", "temperature", "humidity", "light", "sound"])]

/-- §4.1 table rows for the `predictive_maintenance` family. -/
def specPredictiveMaintenance : Config :=
  [("sequence_length", .nat 100), ("threshold", .rat 0.7),
   ("warning_threshold", .rat 0.5),
   ("features", .strList ["usage_hours", "error_count", "temperature", "vibration"])]

/-! ## C2 / C9: predictive maintenance health assessment and scheduling

Embedded from `src/ml-models/src/models/predictive_maintenance.py`
(`assess_device_health` lines 230-276, `_generate_recommendation` lines
278-286, `generate_maintenance_schedule` lines 311-356). -/

/-- Python `int()` on a rational: truncation toward zero. -/
def pyInt (q : ℚ) : Int := Int.tdiv q.num q.den

/-- First-occurrence deduplication, modelling `pandas.Series.unique` (which
returns the distinct values in order of first appearance). -/
def uniqueFirst (l : List String) : List String :=
  l.foldl (fun acc x => if x ∈ acc then acc else acc ++ [x]) []

namespace PredictiveMaintenanceModel

/-- One input row of `assess_device_health`: the device id column together
with the two per-row model outputs the method consumes — the isolation-forest
label (`-1` anomalous / `1` normal, an oracle input from `detect_anomalies`)
and the RUL regression value (oracle input from `predict_rul`). -/
structure PMRow where
  device_id : String
  anomaly : Int
  rul : ℚ
  deriving DecidableEq

/-- Health assessment dictionary produced per device. -/
structure Assessment where
  device_id : String
  health_status : String
  priority : String
  estimated_rul_days : ℚ
  anomaly_rate : ℚ
  recent_anomalies : Nat
  recommendation : String
  deriving DecidableEq

/-- Embedding of `_generate_recommendation` (the `anomaly_rate` argument is
passed by the source but unused in the produced strings). -/
def generate_recommendation (health_status : String) (rul : ℚ) (_anomaly_rate : ℚ) : String :=
  if health_status == "critical" then
    "Immediate maintenance required. Device may fail within " ++ toString (pyInt rul) ++ " days."
  else if health_status == "warning" then
    "Schedule maintenance soon. Estimated " ++ toString (pyInt rul) ++ " days remaining."
  else
    "Device operating normally. Continue regular monitoring."

/-- Health-status decision of `assess_device_health` (source lines 253-262):
the critical check is evaluated before the warning check; the pair is
(health_status, priority). -/
def healthClassify (device_rul anomaly_rate : ℚ) : String × String :=
  if device_rul < 30 ∨ anomaly_rate > 0.3 then ("critical", "high")
  else if device_rul < 90 ∨ anomaly_rate > 0.15 then ("warning", "medium")
  else ("healthy", "low")

/-- Embedding of `assess_device_health`: per device (unique ids in
first-occurrence order) the mean RUL and the anomaly rate over that device's
rows, classified critical / warning / healthy. -/
def assess_device_health (rows : List PMRow) : List Assessment :=
  (uniqueFirst (rows.map (fun r => r.device_id))).map (fun d =>
    let dev := rows.filter (fun r => r.device_id == d)
    let device_rul := meanQ (dev.map (fun r => r.rul))
    let anomCount := (dev.filter (fun r => r.anomaly == -1)).length
    let anomaly_rate := (anomCount : ℚ) / (dev.length : ℚ)
    let hp : String × String := healthClassify device_rul anomaly_rate
    { device_id := d
      health_status := hp.1
      priority := hp.2
      estimated_rul_days := device_rul
      anomaly_rate := anomaly_rate
      recent_anomalies := anomCount
      recommendation := generate_recommendation hp.1 device_rul anomaly_rate })

/-- Scheduled maintenance task dictionary. -/
structure Task where
  device_id : String
  scheduled_date : ℚ
  priority : String
  estimated_duration_hours : Nat
  reason : String
  estimated_rul_days : ℚ
  deriving DecidableEq

/-- The `priority_map` dict of `generate_maintenance_schedule`
(`high` 3, `medium` 2, `low` 1; any other key raises `KeyError` in Python and
is out of the modelled scope — mapped to 0 here, which only affects inputs on
which the source would crash). -/
def priorityRank (p : String) : Nat :=
  if p == "high" then 3 else if p == "medium" then 2 else if p == "low" then 1 else 0

/-- Sort key order of `generate_maintenance_schedule`: ascending lexicographic
on `(priority_map[priority], estimated_rul_days)`; Python `sorted` is stable,
as is `List.mergeSort`. -/
def scheduleLE (a b : Assessment) : Bool :=
  priorityRank a.priority < priorityRank b.priority ∨
    (priorityRank a.priority = priorityRank b.priority ∧
      a.estimated_rul_days ≤ b.estimated_rul_days)

/-- Embedding of `generate_maintenance_schedule`.  Dates are modelled as
rational day offsets (`datetime.now()` is the oracle `current_date`, and
`timedelta(days=d)` is addition of `d`).  The `max_concurrent` parameter is
kept exactly as in the source signature. -/
def generate_maintenance_schedule (assessments : List Assessment)
    (max_concurrent : Nat) (current_date : ℚ) : List Task :=
  let _ := max_concurrent
  let sorted_assessments := assessments.mergeSort scheduleLE
  sorted_assessments.filterMap (fun a =>
    if a.health_status == "healthy" then none
    else
      let days_until_maintenance : ℚ :=
        if a.priority == "high" then min 7 (a.estimated_rul_days * 0.5)
        else if a.priority == "medium" then min 30 (a.estimated_rul_days * 0.7)
        else 90
      some { device_id := a.device_id
             scheduled_date := current_date + days_until_maintenance
             priority := a.priority
             estimated_duration_hours := 2
             reason := a.recommendation
             estimated_rul_days := a.estimated_rul_days })

end PredictiveMaintenanceModel

/-! ## C6: occupancy change detection

Embedded from `src/ml-models/src/models/occupancy_detection.py`
(`detect_occupancy_change`, lines 208-246). -/

namespace OccupancyDetectionModel

/-- One occupancy change event. -/
structure Event where
  timestamp : Nat
  event : String
  probability : ℚ
  confidence : ℚ
  deriving DecidableEq

/-- Event dictionary built at each emission point. -/
def mkEvent (threshold : ℚ) (t : Nat) (p : ℚ) : Event :=
  { timestamp := t
    event := if p ≥ threshold then "occupied" else "unoccupied"
    probability := p
    confidence := |p - 0.5| * 2 }

/-- Loop body of `detect_occupancy_change` over the zipped
(probability, timestamp) rows, carrying `current_state` (`None` before the
first sample). -/
def changeWalk (threshold : ℚ) : Option Bool → List (ℚ × Nat) → List Event
  | _, [] => []
  | none, (p, t) :: rest =>
      mkEvent threshold t p :: changeWalk threshold (some (decide (p ≥ threshold))) rest
  | some st, (p, t) :: rest =>
      if decide (p ≥ threshold) ≠ st then
        mkEvent threshold t p :: changeWalk threshold (some (decide (p ≥ threshold))) rest
      else
        changeWalk threshold (some st) rest

/-- Embedding of `detect_occupancy_change`: the occupied-class probabilities
(`predict_proba(...)[:, 1]`, an oracle input) zipped with their timestamps. -/
def detect_occupancy_change (rows : List (ℚ × Nat)) (threshold : ℚ) : List Event :=
  changeWalk threshold none rows

end OccupancyDetectionModel

/-- Modelled from the spec (§4.7): the event sequence as described there —
the very first sample always emits, and a later sample emits exactly when its
thresholded state differs from the previous state.  Used as the spec-side
reference for C6. -/
def specChangeEvents (threshold : ℚ) : List (ℚ × Nat) → List OccupancyDetectionModel.Event
  | [] => []
  | (p, t) :: rest => OccupancyDetectionModel.mkEvent threshold t p :: specChangeTail threshold p rest
where
  /-- Tail walk comparing each sample's thresholded state with the previous
  sample's thresholded state. -/
  specChangeTail (threshold : ℚ) (prev : ℚ) : List (ℚ × Nat) → List OccupancyDetectionModel.Event
  | [] => []
  | (p, t) :: rest =>
      if decide (p ≥ threshold) ≠ decide (prev ≥ threshold) then
        OccupancyDetectionModel.mkEvent threshold t p :: specChangeTail threshold p rest
      else
        specChangeTail threshold p rest

/-! ## C7 / C8: from-scratch time series forecaster

Embedded from `src/ml-models/src/models/time_series_forecasting.py`
(`TimeSeriesForecaster`: `normalize` lines 14-22, `create_sequences` lines
24-29, `train` lines 31-57, `forecast` lines 59-69). -/

namespace TimeSeriesForecaster

/-- Mutable attributes of a `TimeSeriesForecaster` instance.  `weights` and
`bias` are `None` until the first successful `train` (`np.dot` with `None`
raises a `TypeError` in the source). -/
structure State where
  window_size : Nat
  forecast_horizon : Nat
  weights : Option (List (List ℚ))
  bias : Option (List ℚ)
  scaler_mean : ℚ
  scaler_std : ℚ
  deriving DecidableEq

/-- Constructor state (`__init__`). -/
def init (window_size forecast_horizon : Nat) : State :=
  { window_size := window_size, forecast_horizon := forecast_horizon,
    weights := none, bias := none, scaler_mean := 0, scaler_std := 1 }

/-- Row combination `np.dot(v, W)` of a length-`w` vector with a `w × h`
matrix, accumulating `Σ v_j · W_j` from a zero vector of length `h`. -/
def dotVM (v : List ℚ) (W : List (List ℚ)) (h : Nat) : List ℚ :=
  (v.zip W).foldl (fun acc p => vecAdd acc (vecScale p.1 p.2)) (List.replicate h 0)

/-- Outer product `np.outer a b`. -/
def outerQ (a b : List ℚ) : List (List ℚ) := a.map (fun x => b.map (fun y => x * y))

/-- Elementwise matrix addition. -/
def matAdd (A B : List (List ℚ)) : List (List ℚ) := List.zipWith vecAdd A B

/-- Elementwise scalar multiple of a matrix. -/
def matScale (c : ℚ) (A : List (List ℚ)) : List (List ℚ) := A.map (vecScale c)

/-- Embedding of `normalize`: stores the global mean and the (zero-forced-to-1)
standard deviation and returns the updated state with the scaled series.
`np.std` is `sqrt` of the mean squared deviation; the square root — an
irrational operation on exact rationals — is the oracle `sq` (float `sqrt`
maps `0` to `0`, the only fact the theorems use). -/
def normalize (f : State) (data : List ℚ) (sq : ℚ → ℚ) : State × List ℚ :=
  let m := meanQ data
  let s := sq (meanQ (data.map (fun x => (x - m) ^ 2)))
  let s := if s = 0 then 1 else s
  ({ f with scaler_mean := m, scaler_std := s }, data.map (fun x => (x - m) / s))

/-- Embedding of `create_sequences`: sliding (window, horizon) pairs; the
number of pairs is `max 0 (len - window - horizon + 1)` (an empty Python
`range` for short series), which is the truncated `ℕ` subtraction below. -/
def create_sequences (w h : Nat) (data : List ℚ) : List (List ℚ) × List (List ℚ) :=
  let n := data.length + 1 - (w + h)
  ((List.range n).map (fun i => (data.drop i).take w),
   (List.range n).map (fun i => (data.drop (i + w)).take h))

/-- One per-sample gradient step of `train`'s inner loop: prediction
`X[i]·W + b`, error `y[i] - prediction`, then
`W += lr * outer(X[i], error)` and `b += lr * error`. -/
def trainStep (h : Nat) (lr : ℚ) (Wb : List (List ℚ) × List ℚ)
    (xy : List ℚ × List ℚ) : List (List ℚ) × List ℚ :=
  let prediction := vecAdd (dotVM xy.1 Wb.1 h) Wb.2
  let error := vecSub xy.2 prediction
  (matAdd Wb.1 (matScale lr (outerQ xy.1 error)), vecAdd Wb.2 (vecScale lr error))

/-- The `w × h` initial weight matrix drawn by `np.random.randn(w, h) * 0.01`,
with the oracle `initW` supplying entry `i j`. -/
def initMatrix (w h : Nat) (initW : Nat → Nat → ℚ) : List (List ℚ) :=
  (List.range w).map (fun i => (List.range h).map (fun j => initW i j))

/-- Embedding of `train`.  The `np.random.randn(w, h) * 0.01` weight
initialisation is the oracle `initW` (entry `i j` of the initial matrix);
the error case is the `ValueError` raised when no training sequence fits. -/
def train (f : State) (data : List ℚ) (epochs : Nat) (lr : ℚ)
    (initW : Nat → Nat → ℚ) (sq : ℚ → ℚ) : Except String State :=
  let fn := normalize f data sq
  let f := fn.1
  let Xy := create_sequences f.window_size f.forecast_horizon fn.2
  if Xy.1.length = 0 then
    .error "Not enough data to create training sequences"
  else
    let W0 := initMatrix f.window_size f.forecast_horizon initW
    let b0 : List ℚ := List.replicate f.forecast_horizon 0
    let final := (List.range epochs).foldl
      (fun Wb _ => (Xy.1.zip Xy.2).foldl (trainStep f.forecast_horizon lr) Wb) (W0, b0)
    .ok { f with weights := some final.1, bias := some final.2 }

/-- Embedding of `forecast`: the length guard raises first; with `None`
weights the subsequent `np.dot` raises `TypeError`; otherwise the trailing
`window_size` points are normalized with the stored scaler and the prediction
is denormalized.  The method assigns no attribute, so it returns no state. -/
def forecast (f : State) (recent_data : List ℚ) : Except String (List ℚ) :=
  if recent_data.length < f.window_size then
    .error "Need at least window_size data points for forecasting"
  else
    match f.weights, f.bias with
    | some W, some b =>
        let arr := recent_data.drop (recent_data.length - f.window_size)
        let normalized := arr.map (fun x => (x - f.scaler_mean) / f.scaler_std)
        .ok ((vecAdd (dotVM normalized W f.forecast_horizon) b).map
          (fun x => x * f.scaler_std + f.scaler_mean))
    | _, _ => .error "TypeError: unsupported operand (weights is None)"

end TimeSeriesForecaster

/-! ## C10: model versioning service

Embedded from `src/ml-models/src/services/model_versioning.py`
(`register_version` lines 61-86, `_generate_version` lines 88-95,
`get_version` lines 97-106).  The Python registry is a dict mapping model
name to an ordered record list; it is embedded as one flat list of
(name, record) pairs in append order — per-name sublists and their order, the
only things the operations consult, are preserved by this flattening.
`created_at` and the SHA-256 file `checksum` are effects (clock, file
contents) not consulted by any modelled operation and are omitted. -/

namespace ModelVersioningService

/-- One registered model version record. -/
structure ModelVersion where
  version : String
  model_path : String
  metadata : List (String × String)
  deriving DecidableEq

/-- The registry contents, flattened in registration order. -/
abbrev Registry := List (String × ModelVersion)

/-- Records of one model, in registration order. -/
def versionsOf (reg : Registry) (model_name : String) : List ModelVersion :=
  (reg.filter (fun p => p.1 == model_name)).map Prod.snd

/-- Dot-split of a character list (`version.split('.')` on the string's
characters; structural so that concrete instances evaluate in the kernel). -/
def splitDots : List Char → List (List Char)
  | [] => [[]]
  | c :: cs =>
      if c = '.' then [] :: splitDots cs
      else
        match splitDots cs with
        | [] => [[c]]
        | h :: t => (c :: h) :: t

/-- Python `int()` on one split component, for the non-negative decimal
components of a dotted version string (`int` additionally strips whitespace
and accepts a sign, which no dotted `major.minor.patch` component has). -/
def natOfChars (l : List Char) : Option Nat :=
  if l = [] then none
  else l.foldl (fun acc c => acc.bind (fun n =>
    if c.isDigit then some (n * 10 + (c.toNat - 48)) else none)) (some 0)

/-- Decimal digit character. -/
def digitChar (n : Nat) : Char := Char.ofNat (48 + n)

/-- Decimal rendering of `n`, on explicit fuel (`n + 1` suffices) so that it
is structurally recursive. -/
def renderNatAux : Nat → Nat → List Char
  | 0, _ => []
  | fuel + 1, n =>
      if n < 10 then [digitChar n]
      else renderNatAux fuel (n / 10) ++ [digitChar (n % 10)]

/-- Decimal rendering of a natural number (Python `str`/f-string). -/
def renderNat (n : Nat) : String := String.mk (renderNatAux (n + 1) n)

/-- Parse of `major, minor, patch = map(int, version.split('.'))`: exactly
three dot-separated decimal components (a `ValueError` otherwise). -/
def parse3 (s : String) : Option (Nat × Nat × Nat) :=
  match (splitDots s.data).map natOfChars with
  | [some a, some b, some c] => some (a, b, c)
  | _ => none

/-- Embedding of `_generate_version`: `1.0.0` for an unknown or empty model,
else a patch bump of the version string of the **last appended** record
(`self.versions[model_name][-1]`); `none` is the parse `ValueError`. -/
def generate_version (reg : Registry) (model_name : String) : Option String :=
  match (versionsOf reg model_name).getLast? with
  | none => some "1.0.0"
  | some latest =>
      (parse3 latest.version).map (fun v =>
        renderNat v.1 ++ "." ++ renderNat v.2.1 ++ "." ++ renderNat (v.2.2 + 1))

/-- Embedding of `register_version`: auto-generates the version only when
none is supplied, stamps `model_name` and `registered_at` (oracle `now`)
into the metadata, appends the record unconditionally — no uniqueness check
of any kind — and returns it. -/
def register_version (reg : Registry) (model_name model_path : String)
    (version : Option String) (metadata : Option (List (String × String)))
    (now : String) : Except String (Registry × ModelVersion) :=
  let v? := match version with
    | some v => some v
    | none => generate_version reg model_name
  match v? with
  | none => .error "ValueError: invalid version string"
  | some v =>
      let md := dictUpdate (metadata.getD [])
        [("model_name", model_name), ("registered_at", now)]
      let record : ModelVersion := { version := v, model_path := model_path, metadata := md }
      .ok (reg ++ [(model_name, record)], record)

/-- Embedding of `get_version`: scans the model's records **in registration
order** and returns the first (earliest) one whose version string matches. -/
def get_version (reg : Registry) (model_name version : String) : Option ModelVersion :=
  (versionsOf reg model_name).find? (fun v => v.version == version)

end ModelVersioningService

/-! ## C4: recommendation engine

Embedded from `src/ml-models/src/models/recommendation_engine.py`
(`RecommendationEngine.fit` lines 16-61, `predict_rating` lines 62-74). -/

namespace RecommendationEngine

/-- Attributes of a fitted `RecommendationEngine`.  The index dicts
`user_to_idx` / `item_to_idx` assign consecutive indices to the distinct
users/items, so they are embedded as lists whose positions are the indices;
factor matrices and bias arrays are indexed by those positions. -/
structure State where
  num_factors : Nat
  user_to_idx : List String
  item_to_idx : List String
  user_factors : List (List ℚ)
  item_factors : List (List ℚ)
  user_biases : List ℚ
  item_biases : List ℚ
  global_mean : ℚ

/-- Embedding of `predict_rating`: the global mean alone when either
identifier is unindexed, else the biased dot-product formula. -/
def predict_rating (e : State) (user item : String) : ℚ :=
  match e.user_to_idx.indexOf? user, e.item_to_idx.indexOf? item with
  | some ui, some ii =>
      e.global_mean + e.user_biases.getD ui 0 + e.item_biases.getD ii 0 +
        dotQ (e.user_factors.getD ui []) (e.item_factors.getD ii [])
  | _, _ => e.global_mean

/-- One biased-SGD update of `fit`'s inner loop on interaction
`(user, item, rating)`.  The two factor rows are numpy **views**: the
in-place `+=` on the user row happens first, so the item-row update reads
the **already updated** user factors (`uf'` below), while both bias updates
read their own current values.  An unindexed user/item cannot occur (the
indices are built from the same interaction list); that dead branch returns
the state unchanged. -/
def sgdStep (lr reg : ℚ) (e : State) (t : String × String × ℚ) : State :=
  match e.user_to_idx.indexOf? t.1, e.item_to_idx.indexOf? t.2.1 with
  | some ui, some ii =>
      let prediction := predict_rating e t.1 t.2.1
      let error := t.2.2 - prediction
      let uf := e.user_factors.getD ui []
      let itf := e.item_factors.getD ii []
      let uf' := vecAdd uf (vecScale lr (vecSub (vecScale error itf) (vecScale reg uf)))
      let itf' := vecAdd itf (vecScale lr (vecSub (vecScale error uf') (vecScale reg itf)))
      let ub := e.user_biases.getD ui 0
      let ib := e.item_biases.getD ii 0
      { e with
        user_factors := e.user_factors.set ui uf'
        item_factors := e.item_factors.set ii itf'
        user_biases := e.user_biases.set ui (ub + lr * (error - reg * ub))
        item_biases := e.item_biases.set ii (ib + lr * (error - reg * ib)) }
  | _, _ => e

/-- Embedding of `fit`.  Python iterates `set`s of users/items to build the
index dicts; the iteration order of a set is unspecified, determinised here
as first-occurrence order (no modelled claim depends on the order, only on
membership).  The Gaussian factor initialisation `np.random.normal(0, 0.1)`
is the oracle pair `uInit`/`iInit` (row, column ↦ entry); biases start at
zero and `global_mean` is `np.mean` of the ratings. -/
def fit (num_factors : Nat) (interactions : List (String × String × ℚ))
    (epochs : Nat) (lr reg : ℚ) (uInit iInit : Nat → Nat → ℚ) : State :=
  let users := uniqueFirst (interactions.map (fun t => t.1))
  let items := uniqueFirst (interactions.map (fun t => t.2.1))
  let e0 : State :=
    { num_factors := num_factors
      user_to_idx := users
      item_to_idx := items
      user_factors := (List.range users.length).map (fun i =>
        (List.range num_factors).map (fun j => uInit i j))
      item_factors := (List.range items.length).map (fun i =>
        (List.range num_factors).map (fun j => iInit i j))
      user_biases := List.replicate users.length 0
      item_biases := List.replicate items.length 0
      global_mean := meanQ (interactions.map (fun t => t.2.2)) }
  (List.range epochs).foldl (fun e _ => interactions.foldl (sgdStep lr reg) e) e0

end RecommendationEngine

/-! ## C3: model deployment service

Embedded from `src/ml-models/src/services/model_deployment.py`
(`ModelDeployment.__init__` lines 8-26, `deploy_model` lines 79-99,
`get_active_deployment` lines 101-113, `rollback_deployment` lines 130-155,
`update_metrics` lines 157-167).  The Python store is a dict mapping
environment to an ordered deployment list; it is embedded as one flat list in
append order — every operation only reads one environment's sublist (a filter
of the flat list), whose order the flattening preserves. -/

namespace ModelDeploymentService

/-- Deployment status strings used by the service. -/
inductive DStatus where
  | active
  | inactive
  | rolled_back
  deriving DecidableEq

/-- One deployment record (`ModelDeployment`).  `deployed_at` is the
`datetime.now()` oracle. -/
structure Deployment where
  model_name : String
  version : String
  environment : String
  endpoint : String
  deployed_at : String
  status : DStatus
  metrics : List (String × ℚ)
  deriving DecidableEq

/-- Freshly constructed record: status `active`, zeroed metrics. -/
def mkDeployment (model_name version environment endpoint deployed_at : String) : Deployment :=
  { model_name := model_name, version := version, environment := environment,
    endpoint := endpoint, deployed_at := deployed_at, status := .active,
    metrics := [("requests", 0), ("errors", 0), ("avg_latency", 0)] }

/-- The flattened store. -/
abbrev Store := List Deployment

/-- Record membership test for one (environment, model name) pair. -/
def matchB (env name : String) (d : Deployment) : Bool :=
  d.environment == env && d.model_name == name

/-- The (environment, model name) sublist of the store, oldest first. -/
def sub (env name : String) (s : Store) : List Deployment := s.filter (matchB env name)

/-- Embedding of `get_active_deployment`: scan the environment's records
most-recent-first for the first active one with the given model name. -/
def get_active_deployment (env name : String) (s : Store) : Option Deployment :=
  s.reverse.find? (fun d => matchB env name d && d.status == DStatus.active)

/-- Mark the first (scanning the given, already reversed, list) active record
of the pair inactive — the `existing.status = 'inactive'` mutation performed
by `deploy_model` on the record found by `get_active_deployment`. -/
def deactFirst (env name : String) : List Deployment → List Deployment
  | [] => []
  | d :: ds =>
      if matchB env name d && d.status == DStatus.active then
        { d with status := DStatus.inactive } :: ds
      else
        d :: deactFirst env name ds

/-- Embedding of `deploy_model`: deactivate the pair's current active record
(if any), then append the new record as active. -/
def deploy_model (model_name version env endpoint now : String) (s : Store) : Store :=
  (deactFirst env model_name s.reverse).reverse ++ [mkDeployment model_name version env endpoint now]

/-- Mark the first record of the pair in the given reversed list `active` —
the `previous.status = 'active'` mutation of `rollback_deployment` (the
second-most-recent record of the pair, scanning from the most recent). -/
def markActive (env name : String) : List Deployment → List Deployment
  | [] => []
  | d :: ds =>
      if matchB env name d then { d with status := DStatus.active } :: ds
      else d :: markActive env name ds

/-- Mark, in the given reversed list, the first record of the pair
`rolled_back` and the one after it `active` — the
`current.status = 'rolled_back'; previous.status = 'active'` mutations of
`rollback_deployment`. -/
def markRolled (env name : String) : List Deployment → List Deployment
  | [] => []
  | d :: ds =>
      if matchB env name d then { d with status := DStatus.rolled_back } :: markActive env name ds
      else d :: markRolled env name ds

/-- Embedding of `rollback_deployment`: a no-op unless the pair has at least
two records; otherwise the most recent becomes `rolled_back` and the second
most recent becomes `active`. -/
def rollback_deployment (env name : String) (s : Store) : Store :=
  if (sub env name s).length < 2 then s
  else (markRolled env name s.reverse).reverse

/-- Merge new metrics into the first record of the pair that is active in the
given reversed list — the `deployment.metrics.update(metrics)` mutation of
`update_metrics` on the record found by `get_active_deployment`. -/
def updMetricsFirst (env name : String) (m : List (String × ℚ)) :
    List Deployment → List Deployment
  | [] => []
  | d :: ds =>
      if matchB env name d && d.status == DStatus.active then
        { d with metrics := dictUpdate d.metrics m } :: ds
      else
        d :: updMetricsFirst env name m ds

/-- Embedding of `update_metrics`: update the active record's metrics dict,
if the pair has an active record. -/
def update_metrics (env name : String) (m : List (String × ℚ)) (s : Store) : Store :=
  (updMetricsFirst env name m s.reverse).reverse

/-- Stores reachable from the empty store by any sequence of `deploy_model`,
`rollback_deployment` and `update_metrics` calls (all oracle string/metric
arguments free at each step). -/
inductive Reachable : Store → Prop
  | nil : Reachable []
  | deploy (model_name version env endpoint now : String) {s : Store} :
      Reachable s → Reachable (deploy_model model_name version env endpoint now s)
  | rollback (env name : String) {s : Store} :
      Reachable s → Reachable (rollback_deployment env name s)
  | update (env name : String) (m : List (String × ℚ)) {s : Store} :
      Reachable s → Reachable (update_metrics env name m s)

/-- Number of active records in a list. -/
def activeCount (l : List Deployment) : Nat :=
  (l.filter (fun d => d.status == DStatus.active)).length

/-- Invariant shape of one pair's records, given newest first: at most one
active record, and no active record beyond the two most recent. -/
def RGood (l : List Deployment) : Prop :=
  activeCount l ≤ 1 ∧ ∀ d ∈ l.drop 2, d.status ≠ DStatus.active

/-- The store invariant: every pair's records (taken newest first) satisfy
`RGood`. -/
def Inv (s : Store) : Prop :=
  ∀ env name, RGood (s.reverse.filter (matchB env name))

end ModelDeploymentService

/-! # Theorems -/

/-! ## C1 -/

/-- C1 counterexample: contrary to the claim, `calculate_severity` on the
score `-0.6` does not return `"high"` (it returns `"critical"`, since
`-0.6 > -0.5` is false) and on `-0.2` it does not return `"low"` (it returns
`"medium"`, since `-0.2 > -0.3` is true). -/
theorem claim_C1_counterexample :
    AnomalyDetectionTrainer.calculate_severity (-0.6) = "critical" ∧
    AnomalyDetectionTrainer.calculate_severity (-0.2) = "medium" ∧
    AnomalyDetectionTrainer.calculate_severity (-0.6) ≠ "high" ∧
    AnomalyDetectionTrainer.calculate_severity (-0.2) ≠ "low" := by
  refine ⟨?_, ?_, ?_, ?_⟩ <;> norm_num [AnomalyDetectionTrainer.calculate_severity] <;> decide

/-- C1 (amended): on the anomaly scores `-0.95, -0.8, -0.6, -0.2`,
`AnomalyDetectionModel.detect_anomalies` assigns severities exactly
`high, medium, low, normal`, while `AnomalyDetectionTrainer.calculate_severity`
returns exactly `critical, critical, critical, medium` — so the two severity
schemes disagree on each of the four scores. -/
theorem claim_C1 :
    ((AnomalyDetectionModel.detect_anomalies [1, 1, 1, 1] [-0.95, -0.8, -0.6, -0.2] none).map
        (fun r => r.severity) = ["high", "medium", "low", "normal"]) ∧
    (([-0.95, -0.8, -0.6, -0.2] : List ℚ).map AnomalyDetectionTrainer.calculate_severity
        = ["critical", "critical", "critical", "medium"]) ∧
    AnomalyDetectionModel.severityOf (-0.95) ≠ AnomalyDetectionTrainer.calculate_severity (-0.95) ∧
    AnomalyDetectionModel.severityOf (-0.8) ≠ AnomalyDetectionTrainer.calculate_severity (-0.8) ∧
    AnomalyDetectionModel.severityOf (-0.6) ≠ AnomalyDetectionTrainer.calculate_severity (-0.6) ∧
    AnomalyDetectionModel.severityOf (-0.2) ≠ AnomalyDetectionTrainer.calculate_severity (-0.2) := by
  refine ⟨?_, ?_, ?_, ?_, ?_, ?_⟩ <;>
    norm_num [AnomalyDetectionModel.detect_anomalies, AnomalyDetectionModel.severityOf,
      AnomalyDetectionTrainer.calculate_severity] <;> decide

/-! ## C5 -/

/-- C5: `get_config` returns exactly the §4.1 literal preset for each of the
five family keys, and the empty map for every other key (total — it never
raises). -/
theorem claim_C5 :
    ModelConfig.get_config "energy_forecasting" = specEnergyForecasting ∧
    ModelConfig.get_config "anomaly_detection" = specAnomalyDetection ∧
    ModelConfig.get_config "behavior_prediction" = specBehaviorPrediction ∧
    ModelConfig.get_config "occupancy_detection" = specOccupancyDetection ∧
    ModelConfig.get_config "predictive_maintenance" = specPredictiveMaintenance ∧
    ∀ k : String,
      k ∉ ["energy_forecasting", "anomaly_detection", "behavior_prediction",
           "occupancy_detection", "predictive_maintenance"] →
      ModelConfig.get_config k = [] := by
  refine ⟨rfl, rfl, rfl, rfl, rfl, ?_⟩
  intro k hk
  simp only [List.mem_cons, List.not_mem_nil, or_false, not_or] at hk
  obtain ⟨h1, h2, h3, h4, h5⟩ := hk
  have e1 : ("energy_forecasting" == k) = false := beq_eq_false_iff_ne.mpr (Ne.symm h1)
  have e2 : ("anomaly_detection" == k) = false := beq_eq_false_iff_ne.mpr (Ne.symm h2)
  have e3 : ("behavior_prediction" == k) = false := beq_eq_false_iff_ne.mpr (Ne.symm h3)
  have e4 : ("occupancy_detection" == k) = false := beq_eq_false_iff_ne.mpr (Ne.symm h4)
  have e5 : ("predictive_maintenance" == k) = false := beq_eq_false_iff_ne.mpr (Ne.symm h5)
  simp [ModelConfig.get_config, List.find?, e1, e2, e3, e4, e5]

/-- C5 witness: the unknown-key clause of `claim_C5` applied at the concrete
key `"bogus"`. -/
theorem claim_C5_witness :
    ("bogus" ∉ ["energy_forecasting", "anomaly_detection", "behavior_prediction",
      "occupancy_detection", "predictive_maintenance"]) ∧
    ModelConfig.get_config "bogus" = [] :=
  ⟨by decide, claim_C5.2.2.2.2.2 "bogus" (by decide)⟩

/-! ## C2 -/

/-- Characterization of the critical bucket of `healthClassify`. -/
theorem healthClassify_critical (r t : ℚ) :
    ((PredictiveMaintenanceModel.healthClassify r t).1 = "critical" ∧
      (PredictiveMaintenanceModel.healthClassify r t).2 = "high") ↔ (r < 30 ∨ t > 0.3) := by
  by_cases h1 : r < 30 ∨ t > 0.3
  · simp [PredictiveMaintenanceModel.healthClassify, h1]
  · by_cases h2 : r < 90 ∨ t > 0.15 <;>
      simp [PredictiveMaintenanceModel.healthClassify, h1, h2]

/-- Characterization of the warning bucket of `healthClassify`. -/
theorem healthClassify_warning (r t : ℚ) :
    ((PredictiveMaintenanceModel.healthClassify r t).1 = "warning" ∧
      (PredictiveMaintenanceModel.healthClassify r t).2 = "medium") ↔
    (¬(r < 30 ∨ t > 0.3) ∧ (r < 90 ∨ t > 0.15)) := by
  by_cases h1 : r < 30 ∨ t > 0.3
  · simp [PredictiveMaintenanceModel.healthClassify, h1]
  · by_cases h2 : r < 90 ∨ t > 0.15 <;>
      simp [PredictiveMaintenanceModel.healthClassify, h1, h2]

/-- Characterization of the healthy bucket of `healthClassify`. -/
theorem healthClassify_healthy (r t : ℚ) :
    ((PredictiveMaintenanceModel.healthClassify r t).1 = "healthy" ∧
      (PredictiveMaintenanceModel.healthClassify r t).2 = "low") ↔
    (¬(r < 30 ∨ t > 0.3) ∧ ¬(r < 90 ∨ t > 0.15)) := by
  by_cases h1 : r < 30 ∨ t > 0.3
  · simp [PredictiveMaintenanceModel.healthClassify, h1]
  · by_cases h2 : r < 90 ∨ t > 0.15 <;>
      simp [PredictiveMaintenanceModel.healthClassify, h1, h2]

/-- C2: every assessment produced by `assess_device_health` is classified
critical (priority high) iff mean RUL < 30 or anomaly rate > 0.3, else
warning (priority medium) iff mean RUL < 90 or anomaly rate > 0.15, else
healthy (priority low); and with anomaly rate 0 the boundary values RUL = 29,
30, 91 classify as critical, warning, healthy respectively. -/
theorem claim_C2 :
    (∀ rows : List PredictiveMaintenanceModel.PMRow,
      ∀ a ∈ PredictiveMaintenanceModel.assess_device_health rows,
        ((a.health_status = "critical" ∧ a.priority = "high") ↔
          (a.estimated_rul_days < 30 ∨ a.anomaly_rate > 0.3)) ∧
        ((a.health_status = "warning" ∧ a.priority = "medium") ↔
          (¬(a.estimated_rul_days < 30 ∨ a.anomaly_rate > 0.3) ∧
            (a.estimated_rul_days < 90 ∨ a.anomaly_rate > 0.15))) ∧
        ((a.health_status = "healthy" ∧ a.priority = "low") ↔
          (¬(a.estimated_rul_days < 30 ∨ a.anomaly_rate > 0.3) ∧
            ¬(a.estimated_rul_days < 90 ∨ a.anomaly_rate > 0.15)))) ∧
    ((PredictiveMaintenanceModel.assess_device_health [⟨"d", 1, 29⟩]).map
        (fun a => a.health_status) = ["critical"]) ∧
    ((PredictiveMaintenanceModel.assess_device_health [⟨"d", 1, 30⟩]).map
        (fun a => a.health_status) = ["warning"]) ∧
    ((PredictiveMaintenanceModel.assess_device_health [⟨"d", 1, 91⟩]).map
        (fun a => a.health_status) = ["healthy"]) := by
  refine ⟨?_, ?_, ?_, ?_⟩
  · intro rows a ha
    simp only [PredictiveMaintenanceModel.assess_device_health, List.mem_map] at ha
    obtain ⟨d, hd, rfl⟩ := ha
    exact ⟨healthClassify_critical _ _, healthClassify_warning _ _, healthClassify_healthy _ _⟩
  all_goals
    norm_num [PredictiveMaintenanceModel.assess_device_health, uniqueFirst,
      PredictiveMaintenanceModel.healthClassify, meanQ, sumQ]

/-- C2 witness: `claim_C2` applied to the concrete single-device frame with
RUL 29 and no anomalies. -/
theorem claim_C2_witness :
    PredictiveMaintenanceModel.Assessment.mk "d" "critical" "high" 29 0 0
        (PredictiveMaintenanceModel.generate_recommendation "critical" 29 0) ∈
      PredictiveMaintenanceModel.assess_device_health [⟨"d", 1, 29⟩] ∧
    ((PredictiveMaintenanceModel.Assessment.mk "d" "critical" "high" 29 0 0
        (PredictiveMaintenanceModel.generate_recommendation "critical" 29 0)).estimated_rul_days
        < 30 ∨
      (PredictiveMaintenanceModel.Assessment.mk "d" "critical" "high" 29 0 0
        (PredictiveMaintenanceModel.generate_recommendation "critical" 29 0)).anomaly_rate
        > 0.3) := by
  have hmem : PredictiveMaintenanceModel.Assessment.mk "d" "critical" "high" 29 0 0
      (PredictiveMaintenanceModel.generate_recommendation "critical" 29 0) ∈
      PredictiveMaintenanceModel.assess_device_health [⟨"d", 1, 29⟩] := by
    norm_num [PredictiveMaintenanceModel.assess_device_health, uniqueFirst,
      PredictiveMaintenanceModel.healthClassify, meanQ, sumQ]
  exact ⟨hmem, ((claim_C2.1 [⟨"d", 1, 29⟩] _ hmem).1).mp ⟨rfl, rfl⟩⟩

/-! ## C9 -/

/-- C9: `generate_maintenance_schedule` produces identical schedules for any
two values of `max_concurrent` on the same assessments and current date — the
parameter has no influence on the output. -/
theorem claim_C9 :
    ∀ (assessments : List PredictiveMaintenanceModel.Assessment)
      (mc1 mc2 : Nat) (current_date : ℚ),
      PredictiveMaintenanceModel.generate_maintenance_schedule assessments mc1 current_date =
        PredictiveMaintenanceModel.generate_maintenance_schedule assessments mc2 current_date :=
  fun _ _ _ _ => rfl

/-! ## C6 -/

/-- The loop of `detect_occupancy_change`, once past the first sample, agrees
with the spec-side tail walk: since `current_state` always equals the
thresholded state of the last processed sample (it is updated on every
emission, and a non-emission means it already equals that state), comparing
with the previously *emitted* state is the same as comparing with the
previous *sample*. -/
theorem changeWalk_eq_specTail (thr : ℚ) (l : List (ℚ × Nat)) :
    ∀ prev : ℚ, OccupancyDetectionModel.changeWalk thr (some (decide (prev ≥ thr))) l =
      specChangeEvents.specChangeTail thr prev l := by
  induction l with
  | nil => intro prev; rfl
  | cons hd tl ih =>
    intro prev
    obtain ⟨p, t⟩ := hd
    simp only [OccupancyDetectionModel.changeWalk, specChangeEvents.specChangeTail]
    by_cases h : decide (p ≥ thr) = decide (prev ≥ thr)
    · rw [if_neg (by simp [h]), if_neg (by simp [h]), ← h]
      exact ih p
    · rw [if_pos h, if_pos h]
      exact congrArg (List.cons _) (ih p)

/-- C6: `detect_occupancy_change` emits an event at the first sample always
and at every later sample exactly when the thresholded state differs from the
previously emitted state — equivalently (proved), from the previous sample's
thresholded state, which is what `specChangeEvents` (written from the spec's
words) computes; each event carries the raw probability and confidence
`|p - 0.5| * 2`.  On probabilities `[0.9, 0.9, 0.2, 0.2, 0.8]` with threshold
`0.7` exactly the three events at positions 0 (occupied), 2 (unoccupied) and
4 (occupied) are emitted. -/
theorem claim_C6 :
    (∀ (thr : ℚ) (rows : List (ℚ × Nat)),
      OccupancyDetectionModel.detect_occupancy_change rows thr = specChangeEvents thr rows) ∧
    OccupancyDetectionModel.detect_occupancy_change
        [(0.9, 0), (0.9, 1), (0.2, 2), (0.2, 3), (0.8, 4)] 0.7 =
      [⟨0, "occupied", 0.9, 0.8⟩, ⟨2, "unoccupied", 0.2, 0.6⟩, ⟨4, "occupied", 0.8, 0.6⟩] := by
  constructor
  · intro thr rows
    cases rows with
    | nil => rfl
    | cons hd tl =>
      obtain ⟨p, t⟩ := hd
      simp only [OccupancyDetectionModel.detect_occupancy_change,
        OccupancyDetectionModel.changeWalk, specChangeEvents]
      exact congrArg (List.cons _) (changeWalk_eq_specTail thr tl p)
  · have d1 : ((0.9 : ℚ) ≥ 0.7) = True := by norm_num
    have d2 : ((0.2 : ℚ) ≥ 0.7) = False := by norm_num
    have d3 : ((0.8 : ℚ) ≥ 0.7) = True := by norm_num
    simp only [OccupancyDetectionModel.detect_occupancy_change,
      OccupancyDetectionModel.changeWalk, OccupancyDetectionModel.mkEvent, d1, d2, d3,
      decide_True, decide_False]
    norm_num
    constructor <;> rw [abs_of_nonneg (by norm_num)] <;> norm_num

/-! ## C10 -/

/-- Appending a record for a model extends exactly that model's version
list. -/
theorem versionsOf_append (reg : ModelVersioningService.Registry) (name : String)
    (m : ModelVersioningService.ModelVersion) :
    ModelVersioningService.versionsOf (reg ++ [(name, m)]) name =
      ModelVersioningService.versionsOf reg name ++ [m] := by
  simp [ModelVersioningService.versionsOf, List.filter_append]

/-- C10: `register_version` never enforces uniqueness — with an explicit
version string it always succeeds and appends a record carrying exactly that
string, so a duplicate version yields a second record with the same string;
`get_version` then returns the earliest matching record (concrete duplicate
registry below, where it returns the `p1` record, not the later `p2` one);
auto-generation patch-bumps the most recently appended record's version
(`0.5.1` after registering `2.0.0` then `0.5.0` — not `2.0.1`), starting at
`1.0.0` for a new model. -/
theorem claim_C10 :
    (∀ (reg : ModelVersioningService.Registry) (name path v now : String)
       (md : Option (List (String × String))),
      ∃ rec : ModelVersioningService.ModelVersion,
        rec.version = v ∧
        ModelVersioningService.register_version reg name path (some v) md now =
          .ok (reg ++ [(name, rec)], rec) ∧
        ModelVersioningService.versionsOf (reg ++ [(name, rec)]) name =
          ModelVersioningService.versionsOf reg name ++ [rec]) ∧
    (ModelVersioningService.get_version
        [("m", ⟨"1.0.0", "p1", [("model_name", "m"), ("registered_at", "t1")]⟩),
         ("m", ⟨"1.0.0", "p2", [("model_name", "m"), ("registered_at", "t2")]⟩)]
        "m" "1.0.0" =
      some ⟨"1.0.0", "p1", [("model_name", "m"), ("registered_at", "t1")]⟩) ∧
    (ModelVersioningService.generate_version
        [("m", ⟨"2.0.0", "pa", []⟩), ("m", ⟨"0.5.0", "pb", []⟩)] "m" = some "0.5.1") ∧
    (∀ name : String, ModelVersioningService.generate_version [] name = some "1.0.0") ∧
    (ModelVersioningService.register_version
        [("m", ⟨"2.0.0", "pa", []⟩), ("m", ⟨"0.5.0", "pb", []⟩)] "m" "p3" none none "t3" =
      .ok ([("m", ⟨"2.0.0", "pa", []⟩), ("m", ⟨"0.5.0", "pb", []⟩),
            ("m", ⟨"0.5.1", "p3", [("model_name", "m"), ("registered_at", "t3")]⟩)],
           ⟨"0.5.1", "p3", [("model_name", "m"), ("registered_at", "t3")]⟩)) := by
  refine ⟨?_, by decide, by decide, fun name => rfl, rfl⟩
  intro reg name path v now md
  exact ⟨⟨v, path, dictUpdate (md.getD [])
      [("model_name", name), ("registered_at", now)]⟩, rfl, rfl,
    versionsOf_append reg name _⟩

/-! ## C7 -/

/-- Training succeeds exactly when the series admits at least one
(window, horizon) training sequence. -/
theorem train_isOk_iff (f : TimeSeriesForecaster.State) (data : List ℚ) (epochs : Nat)
    (lr : ℚ) (initW : Nat → Nat → ℚ) (sq : ℚ → ℚ) :
    (∃ f', TimeSeriesForecaster.train f data epochs lr initW sq = .ok f') ↔
      f.window_size + f.forecast_horizon ≤ data.length := by
  unfold TimeSeriesForecaster.train
  simp only [TimeSeriesForecaster.normalize, TimeSeriesForecaster.create_sequences,
    List.length_map, List.length_range]
  split
  · next h =>
      refine iff_of_false ?_ (by omega)
      rintro ⟨f', hf⟩
      simp at hf
  · next h => exact iff_of_true ⟨_, rfl⟩ (by omega)

/-- A successful `train` keeps the window size and sets both `weights` and
`bias`. -/
theorem train_ok_state {f : TimeSeriesForecaster.State} {data : List ℚ} {epochs : Nat}
    {lr : ℚ} {initW : Nat → Nat → ℚ} {sq : ℚ → ℚ} {f' : TimeSeriesForecaster.State}
    (h : TimeSeriesForecaster.train f data epochs lr initW sq = .ok f') :
    f'.window_size = f.window_size ∧
      ∃ W b, f'.weights = some W ∧ f'.bias = some b := by
  unfold TimeSeriesForecaster.train at h
  dsimp only at h
  split at h
  · simp at h
  · simp only [Except.ok.injEq] at h
    subst h
    exact ⟨rfl, _, _, rfl, rfl⟩

/-- With `weights` and `bias` set, `forecast` succeeds exactly when the input
has at least `window_size` points. -/
theorem forecast_isOk_iff (f : TimeSeriesForecaster.State) (W : List (List ℚ))
    (b : List ℚ) (hW : f.weights = some W) (hb : f.bias = some b) (recent : List ℚ) :
    (∃ out, TimeSeriesForecaster.forecast f recent = .ok out) ↔
      f.window_size ≤ recent.length := by
  unfold TimeSeriesForecaster.forecast
  by_cases h : recent.length < f.window_size
  · rw [if_pos h]
    refine iff_of_false ?_ (by omega)
    rintro ⟨o, ho⟩
    simp at ho
  · rw [if_neg h, hW, hb]
    exact iff_of_true ⟨_, rfl⟩ (by omega)

/-- C7 counterexample: on a freshly constructed (untrained) forecaster with
the default window 24, `forecast` of a 24-point series — not fewer than
`window_size` points — still raises (the `np.dot` with `None` weights), so
"`forecast` raises an error if and only if its input has fewer than
`window_size` points" fails as stated. -/
theorem claim_C7_counterexample :
    TimeSeriesForecaster.forecast (TimeSeriesForecaster.init 24 12)
        (List.replicate 24 0) =
      .error "TypeError: unsupported operand (weights is None)" ∧
    (TimeSeriesForecaster.init 24 12).window_size ≤ (List.replicate 24 (0 : ℚ)).length :=
  ⟨rfl, by decide⟩

/-- C7 (amended): `train` raises InvalidInput iff the series has fewer than
`window_size + forecast_horizon` points; and for a forecaster returned by a
successful `train` (with positive window), `forecast` raises iff its input
has fewer than `window_size` points (`forecast` assigns no attribute at all,
so it cannot change the stored weights and bias — it is embedded as a pure
function returning no state). -/
theorem claim_C7 :
    (∀ (f : TimeSeriesForecaster.State) (data : List ℚ) (epochs : Nat) (lr : ℚ)
       (initW : Nat → Nat → ℚ) (sq : ℚ → ℚ),
      (∃ f', TimeSeriesForecaster.train f data epochs lr initW sq = .ok f') ↔
        f.window_size + f.forecast_horizon ≤ data.length) ∧
    (∀ (f : TimeSeriesForecaster.State) (data : List ℚ) (epochs : Nat) (lr : ℚ)
       (initW : Nat → Nat → ℚ) (sq : ℚ → ℚ) (f' : TimeSeriesForecaster.State),
      TimeSeriesForecaster.train f data epochs lr initW sq = .ok f' →
      0 < f.window_size →
      ∀ recent : List ℚ,
        (∃ out, TimeSeriesForecaster.forecast f' recent = .ok out) ↔
          f.window_size ≤ recent.length) := by
  refine ⟨train_isOk_iff, ?_⟩
  intro f data epochs lr initW sq f' htrain _ recent
  obtain ⟨hwsz, W, b, hW, hb⟩ := train_ok_state htrain
  exact hwsz ▸ forecast_isOk_iff f' W b hW hb recent

/-- C7 witness: `claim_C7` applied to concrete data — training a
window-2/horizon-1 forecaster on `[1, 2, 3, 4]` (length 4 ≥ 2 + 1) succeeds,
and the resulting trained forecaster's `forecast` succeeds on a 2-point
input. -/
theorem claim_C7_witness :
    (∃ f', TimeSeriesForecaster.train (TimeSeriesForecaster.init 2 1) [1, 2, 3, 4] 0 (1/100)
        (fun _ _ => 0) (fun _ => 0) = .ok f') ∧
    (∃ out, TimeSeriesForecaster.forecast
        ⟨2, 1, some [[0], [0]], some [0], 5/2, 1⟩ [9, 9] = .ok out) := by
  have htrain : TimeSeriesForecaster.train (TimeSeriesForecaster.init 2 1) [1, 2, 3, 4] 0 (1/100)
      (fun _ _ => 0) (fun _ => 0) = .ok ⟨2, 1, some [[0], [0]], some [0], 5/2, 1⟩ := by
    norm_num [TimeSeriesForecaster.train, TimeSeriesForecaster.init,
      TimeSeriesForecaster.normalize, TimeSeriesForecaster.create_sequences, meanQ, sumQ]
    rfl
  refine ⟨(claim_C7.1 (TimeSeriesForecaster.init 2 1) [1, 2, 3, 4] 0 (1/100)
      (fun _ _ => 0) (fun _ => 0)).mpr (by decide), ?_⟩
  exact (claim_C7.2 (TimeSeriesForecaster.init 2 1) [1, 2, 3, 4] 0 (1/100)
      (fun _ _ => 0) (fun _ => 0) _ htrain (by decide) [9, 9]).mpr (by decide)

/-! ## C8 -/

/-- Pointwise `zipWith` of two equal-length constant vectors. -/
theorem zipWith_replicate_both (f : ℚ → ℚ → ℚ) (n : Nat) (a b : ℚ) :
    List.zipWith f (List.replicate n a) (List.replicate n b) = List.replicate n (f a b) := by
  induction n with
  | zero => rfl
  | succ k ih => simp [List.replicate_succ, ih]

/-- Adding a zero vector of matching length on the right is the identity. -/
theorem vecAdd_replicate_zero_right (l : List ℚ) : vecAdd l (List.replicate l.length 0) = l := by
  induction l with
  | nil => rfl
  | cons a t ih => simpa [vecAdd, List.replicate_succ] using ih

/-- A zero window dotted into any matrix of `h`-length rows is the zero
vector of length `h`. -/
theorem dotVM_zero (v : List ℚ) (W : List (List ℚ)) (h : Nat)
    (hv : ∀ x ∈ v, x = (0 : ℚ)) (hW : ∀ r ∈ W, r.length = h) :
    TimeSeriesForecaster.dotVM v W h = List.replicate h 0 := by
  unfold TimeSeriesForecaster.dotVM
  have aux : ∀ l : List (ℚ × List ℚ), (∀ p ∈ l, p.1 = (0 : ℚ) ∧ p.2.length = h) →
      l.foldl (fun acc p => vecAdd acc (vecScale p.1 p.2)) (List.replicate h 0) =
        List.replicate h 0 := by
    intro l
    induction l with
    | nil => intro _; rfl
    | cons p t ih =>
        intro hl
        obtain ⟨hp1, hp2⟩ := hl p (List.mem_cons_self p t)
        have hstep : vecAdd (List.replicate h 0) (vecScale p.1 p.2) = List.replicate h 0 := by
          rw [hp1]
          have : vecScale 0 p.2 = List.replicate h 0 := by
            unfold vecScale
            rw [← hp2]
            induction p.2 with
            | nil => rfl
            | cons a t ihs => simp [List.replicate_succ, ihs]
          rw [this]
          unfold vecAdd
          rw [zipWith_replicate_both]
          norm_num
        simpa [hstep] using ih (fun q hq => hl q (List.mem_cons_of_mem p hq))
  apply aux
  rintro ⟨x, r⟩ hp
  obtain ⟨hx, hr⟩ := List.of_mem_zip hp
  exact ⟨hv x hx, hW r hr⟩

/-- Adding an all-zero matrix with enough rows is the identity. -/
theorem matAdd_replicate_zero (W : List (List ℚ)) (h : Nat) (hW : ∀ r ∈ W, r.length = h) :
    ∀ m : Nat, W.length ≤ m →
      TimeSeriesForecaster.matAdd W (List.replicate m (List.replicate h 0)) = W := by
  induction W with
  | nil => intro m _; rfl
  | cons r t ih =>
      intro m hm
      match m, hm with
      | m' + 1, hm' =>
        have hr : r.length = h := hW r (List.mem_cons_self r t)
        simp only [List.replicate_succ, TimeSeriesForecaster.matAdd, List.zipWith_cons_cons]
        rw [show vecAdd r (List.replicate h 0) = r from by
          rw [← hr]; exact vecAdd_replicate_zero_right r]
        exact congrArg (List.cons r) (ih (fun q hq => hW q (List.mem_cons_of_mem r hq)) m'
          (by simp only [List.length_cons] at hm'; omega))

/-- On an all-zero (window, target) pair, one SGD step of `train` leaves the
weight matrix and a zero bias unchanged: the prediction equals the bias, the
error is therefore zero, and both updates add zero. -/
theorem trainStep_const (h : Nat) (lr : ℚ) (W : List (List ℚ))
    (hW : ∀ r ∈ W, r.length = h) (xy : List ℚ × List ℚ)
    (hx : ∀ x ∈ xy.1, x = (0 : ℚ)) (hy : xy.2 = List.replicate h 0)
    (hlen : W.length ≤ xy.1.length) :
    TimeSeriesForecaster.trainStep h lr (W, List.replicate h 0) xy =
      (W, List.replicate h 0) := by
  obtain ⟨v, y⟩ := xy
  simp only at hx hy hlen
  subst hy
  unfold TimeSeriesForecaster.trainStep
  dsimp only
  rw [dotVM_zero v W h hx hW]
  have hz : vecAdd (List.replicate h 0) (List.replicate h 0) = List.replicate h 0 := by
    unfold vecAdd; rw [zipWith_replicate_both]; norm_num
  rw [hz]
  have herr : vecSub (List.replicate h 0) (List.replicate h 0) = List.replicate h 0 := by
    unfold vecSub; rw [zipWith_replicate_both]; norm_num
  rw [herr]
  have hsc : vecScale lr (List.replicate h 0) = List.replicate h 0 := by
    unfold vecScale; rw [List.map_replicate]; norm_num
  rw [hsc, hz]
  have houter : TimeSeriesForecaster.outerQ v (List.replicate h 0) =
      List.replicate v.length (List.replicate h 0) := by
    unfold TimeSeriesForecaster.outerQ
    have : ∀ u : List ℚ, u.map (fun x => (List.replicate h 0).map (fun y => x * y)) =
        List.replicate u.length (List.replicate h 0) := by
      intro u
      induction u with
      | nil => rfl
      | cons a t ihu => simp [List.replicate_succ, List.map_replicate, ihu]
    exact this v
  rw [houter]
  have hms : TimeSeriesForecaster.matScale lr (List.replicate v.length (List.replicate h 0)) =
      List.replicate v.length (List.replicate h 0) := by
    unfold TimeSeriesForecaster.matScale
    rw [List.map_replicate, hsc]
  rw [hms, matAdd_replicate_zero W h hW v.length hlen]

/-- Folding `trainStep` over any list of all-zero (window, target) pairs
leaves `(W, 0)` unchanged. -/
theorem foldl_trainStep_const (h : Nat) (lr : ℚ) (W : List (List ℚ))
    (hW : ∀ r ∈ W, r.length = h) (l : List (List ℚ × List ℚ))
    (hl : ∀ p ∈ l, (∀ x ∈ p.1, x = (0 : ℚ)) ∧ p.2 = List.replicate h 0 ∧
      W.length ≤ p.1.length) :
    l.foldl (TimeSeriesForecaster.trainStep h lr) (W, List.replicate h 0) =
      (W, List.replicate h 0) := by
  induction l with
  | nil => rfl
  | cons p t ih =>
      obtain ⟨h1, h2, h3⟩ := hl p (List.mem_cons_self p t)
      rw [List.foldl_cons, trainStep_const h lr W hW p h1 h2 h3]
      exact ih (fun q hq => hl q (List.mem_cons_of_mem p hq))

/-- The mean of a constant nonempty series is the constant. -/
theorem meanQ_replicate (c : ℚ) (n : Nat) (hn : 0 < n) :
    meanQ (List.replicate n c) = c := by
  unfold meanQ sumQ
  rw [← List.sum_eq_foldl, List.sum_replicate, List.length_replicate, nsmul_eq_mul]
  have : (n : ℚ) ≠ 0 := Nat.cast_ne_zero.mpr hn.ne'
  field_simp

/-- Normalizing a constant series stores mean `c` and (zero forced to one)
std `1`, and scales the series to all zeros. -/
theorem normalize_replicate (f : TimeSeriesForecaster.State) (c : ℚ) (n : Nat)
    (hn : 0 < n) (sq : ℚ → ℚ) (hsq : sq 0 = 0) :
    TimeSeriesForecaster.normalize f (List.replicate n c) sq =
      ({ f with scaler_mean := c, scaler_std := 1 }, List.replicate n 0) := by
  unfold TimeSeriesForecaster.normalize
  have h2 : ((c - c) ^ 2 : ℚ) = 0 := by ring
  have h3 : ((c - c) / 1 : ℚ) = 0 := by ring
  simp only [meanQ_replicate c n hn, List.map_replicate, h2, meanQ_replicate 0 n hn, hsq,
    eq_self_iff_true, if_true, h3]

/-- Every (window, target) pair built from an all-zero series is an all-zero
pair of the right lengths. -/
theorem create_sequences_zero_mem (w h n : Nat) (p : List ℚ × List ℚ)
    (hp : p ∈ (TimeSeriesForecaster.create_sequences w h (List.replicate n 0)).1.zip
      (TimeSeriesForecaster.create_sequences w h (List.replicate n 0)).2) :
    p.1 = List.replicate w 0 ∧ p.2 = List.replicate h 0 := by
  obtain ⟨x, y⟩ := p
  obtain ⟨hx, hy⟩ := List.of_mem_zip hp
  simp only [TimeSeriesForecaster.create_sequences, List.length_replicate, List.mem_map,
    List.mem_range] at hx hy
  constructor
  · obtain ⟨i, hi, rfl⟩ := hx
    rw [List.drop_replicate, List.take_replicate]
    have : min w (n - i) = w := by omega
    rw [this]
  · obtain ⟨i, hi, rfl⟩ := hy
    rw [List.drop_replicate, List.take_replicate]
    have : min h (n - (i + w)) = h := by omega
    rw [this]

/-- Rows of the initial weight matrix have length `h`, and there are `w` of
them. -/
theorem initMatrix_shape (w h : Nat) (initW : Nat → Nat → ℚ) :
    (TimeSeriesForecaster.initMatrix w h initW).length = w ∧
      ∀ r ∈ TimeSeriesForecaster.initMatrix w h initW, r.length = h := by
  constructor
  · simp [TimeSeriesForecaster.initMatrix]
  · intro r hr
    simp only [TimeSeriesForecaster.initMatrix, List.mem_map] at hr
    obtain ⟨i, _, rfl⟩ := hr
    simp

/-- C8: training on a constant series of value `c` (length at least
`window_size + forecast_horizon`, nonempty) succeeds and leaves the bias at
zero and the scaler at mean `c` / std `1` (the computed std is `sqrt 0 = 0`,
forced to `1`), so `forecast` on the trailing window of `c`s returns exactly
`c` for every horizon entry — in exact rational arithmetic the equality is
exact, hence within any numeric tolerance. -/
theorem claim_C8 (c lr : ℚ) (w h n epochs : Nat) (initW : Nat → Nat → ℚ)
    (sq : ℚ → ℚ) (hsq : sq 0 = 0) (hn : 0 < n) (hlen : w + h ≤ n) :
    ∃ f', TimeSeriesForecaster.train (TimeSeriesForecaster.init w h)
        (List.replicate n c) epochs lr initW sq = .ok f' ∧
      TimeSeriesForecaster.forecast f' (List.replicate w c) =
        .ok (List.replicate h c) := by
  obtain ⟨hW0len, hW0rows⟩ := initMatrix_shape w h initW
  have hpairs : ∀ p ∈ (TimeSeriesForecaster.create_sequences w h (List.replicate n 0)).1.zip
      (TimeSeriesForecaster.create_sequences w h (List.replicate n 0)).2,
      (∀ x ∈ p.1, x = (0 : ℚ)) ∧ p.2 = List.replicate h 0 ∧
        (TimeSeriesForecaster.initMatrix w h initW).length ≤ p.1.length := by
    intro p hp
    obtain ⟨h1, h2⟩ := create_sequences_zero_mem w h n p hp
    refine ⟨fun x hx => ?_, h2, ?_⟩
    · rw [h1] at hx; exact List.eq_of_mem_replicate hx
    · rw [h1, List.length_replicate, hW0len]
  have hloop : ∀ l : List Nat,
      l.foldl (fun Wb _ =>
        ((TimeSeriesForecaster.create_sequences w h (List.replicate n 0)).1.zip
          (TimeSeriesForecaster.create_sequences w h (List.replicate n 0)).2).foldl
          (TimeSeriesForecaster.trainStep h lr) Wb)
        (TimeSeriesForecaster.initMatrix w h initW, List.replicate h 0) =
      (TimeSeriesForecaster.initMatrix w h initW, List.replicate h 0) := by
    intro l
    induction l with
    | nil => rfl
    | cons a t ih =>
        rw [List.foldl_cons,
          foldl_trainStep_const h lr (TimeSeriesForecaster.initMatrix w h initW) hW0rows _
            hpairs]
        exact ih
  have htrain : TimeSeriesForecaster.train (TimeSeriesForecaster.init w h)
      (List.replicate n c) epochs lr initW sq =
      .ok ⟨w, h, some (TimeSeriesForecaster.initMatrix w h initW),
        some (List.replicate h 0), c, 1⟩ := by
    unfold TimeSeriesForecaster.train
    rw [normalize_replicate (TimeSeriesForecaster.init w h) c n hn sq hsq]
    dsimp only [TimeSeriesForecaster.init]
    rw [if_neg (by
      simp only [TimeSeriesForecaster.create_sequences, List.length_map, List.length_range,
        List.length_replicate]
      omega)]
    rw [hloop (List.range epochs)]
  refine ⟨_, htrain, ?_⟩
  unfold TimeSeriesForecaster.forecast
  rw [if_neg (by simp)]
  dsimp only
  rw [List.length_replicate, Nat.sub_self, List.drop_zero, List.map_replicate]
  have hnorm : ((c - c) / 1 : ℚ) = 0 := by ring
  rw [hnorm, dotVM_zero (List.replicate w 0) _ h
    (fun x hx => List.eq_of_mem_replicate hx) hW0rows]
  have hz : vecAdd (List.replicate h 0) (List.replicate h 0) = List.replicate h 0 := by
    unfold vecAdd; rw [zipWith_replicate_both]; norm_num
  rw [hz, List.map_replicate]
  norm_num

/-- C8 witness: `claim_C8` at the constant series of value `5`, window 2,
horizon 1, length 3, two epochs, nonzero weight initialisation. -/
theorem claim_C8_witness :
    ∃ f', TimeSeriesForecaster.train (TimeSeriesForecaster.init 2 1)
        (List.replicate 3 5) 2 (1/100) (fun _ _ => 1) (fun _ => 0) = .ok f' ∧
      TimeSeriesForecaster.forecast f' (List.replicate 2 5) =
        .ok (List.replicate 1 5) :=
  claim_C8 5 (1/100) 2 1 3 2 (fun _ _ => 1) (fun _ => 0) rfl (by decide) (by decide)

/-! ## C4 -/

/-- Membership in the first-occurrence deduplication is plain membership. -/
theorem mem_uniqueFirst (l : List String) (x : String) :
    x ∈ uniqueFirst l ↔ x ∈ l := by
  have aux : ∀ (t acc : List String),
      x ∈ t.foldl (fun acc y => if y ∈ acc then acc else acc ++ [y]) acc ↔
        x ∈ acc ∨ x ∈ t := by
    intro t
    induction t with
    | nil => intro acc; simp
    | cons a s ih =>
        intro acc
        rw [List.foldl_cons]
        by_cases ha : a ∈ acc
        · rw [if_pos ha, ih]
          constructor
          · rintro (h | h)
            · exact Or.inl h
            · exact Or.inr (List.mem_cons_of_mem a h)
          · rintro (h | h)
            · exact Or.inl h
            · rcases List.mem_cons.mp h with h | h
              · exact Or.inl (h ▸ ha)
              · exact Or.inr h
        · rw [if_neg ha, ih]
          simp only [List.mem_append, List.mem_singleton, List.mem_cons]
          tauto
  unfold uniqueFirst
  rw [aux]
  simp

/-- `indexOf?` is `none` exactly off the list. -/
theorem indexOf?_eq_none_iff_not_mem (l : List String) (a : String) :
    l.indexOf? a = none ↔ a ∉ l := by
  simp only [List.indexOf?_eq_none_iff, beq_iff_eq]
  constructor
  · intro h ha
    exact h a ha rfl
  · intro h y hy e
    exact h (e ▸ hy)

/-- One SGD step never touches the index maps or the global mean. -/
theorem sgdStep_preserves (lr reg : ℚ) (e : RecommendationEngine.State)
    (t : String × String × ℚ) :
    (RecommendationEngine.sgdStep lr reg e t).user_to_idx = e.user_to_idx ∧
    (RecommendationEngine.sgdStep lr reg e t).item_to_idx = e.item_to_idx ∧
    (RecommendationEngine.sgdStep lr reg e t).global_mean = e.global_mean := by
  unfold RecommendationEngine.sgdStep
  split <;> simp

/-- Neither training fold of `fit` touches the index maps or the global
mean. -/
theorem fit_folds_preserve (lr reg : ℚ) :
    ∀ (ints : List (String × String × ℚ)) (e : RecommendationEngine.State),
      (ints.foldl (RecommendationEngine.sgdStep lr reg) e).user_to_idx = e.user_to_idx ∧
      (ints.foldl (RecommendationEngine.sgdStep lr reg) e).item_to_idx = e.item_to_idx ∧
      (ints.foldl (RecommendationEngine.sgdStep lr reg) e).global_mean = e.global_mean := by
  intro ints
  induction ints with
  | nil => intro e; exact ⟨rfl, rfl, rfl⟩
  | cons a t ih =>
      intro e
      rw [List.foldl_cons]
      obtain ⟨h1, h2, h3⟩ := ih (RecommendationEngine.sgdStep lr reg e a)
      obtain ⟨g1, g2, g3⟩ := sgdStep_preserves lr reg e a
      exact ⟨h1.trans g1, h2.trans g2, h3.trans g3⟩

/-- The fitted engine's index lists are the deduplicated users/items of the
interaction list, and its global mean is the mean rating, all unchanged by
the SGD epochs. -/
theorem fit_fields (nf : Nat) (ints : List (String × String × ℚ)) (epochs : Nat)
    (lr reg : ℚ) (uInit iInit : Nat → Nat → ℚ) :
    (RecommendationEngine.fit nf ints epochs lr reg uInit iInit).user_to_idx =
      uniqueFirst (ints.map (fun t => t.1)) ∧
    (RecommendationEngine.fit nf ints epochs lr reg uInit iInit).item_to_idx =
      uniqueFirst (ints.map (fun t => t.2.1)) ∧
    (RecommendationEngine.fit nf ints epochs lr reg uInit iInit).global_mean =
      meanQ (ints.map (fun t => t.2.2)) := by
  unfold RecommendationEngine.fit
  have aux : ∀ (l : List Nat) (e : RecommendationEngine.State),
      (l.foldl (fun e _ => ints.foldl (RecommendationEngine.sgdStep lr reg) e) e).user_to_idx
        = e.user_to_idx ∧
      (l.foldl (fun e _ => ints.foldl (RecommendationEngine.sgdStep lr reg) e) e).item_to_idx
        = e.item_to_idx ∧
      (l.foldl (fun e _ => ints.foldl (RecommendationEngine.sgdStep lr reg) e) e).global_mean
        = e.global_mean := by
    intro l
    induction l with
    | nil => intro e; exact ⟨rfl, rfl, rfl⟩
    | cons a t ih =>
        intro e
        rw [List.foldl_cons]
        obtain ⟨h1, h2, h3⟩ := ih (ints.foldl (RecommendationEngine.sgdStep lr reg) e)
        obtain ⟨g1, g2, g3⟩ := fit_folds_preserve lr reg ints e
        exact ⟨h1.trans g1, h2.trans g2, h3.trans g3⟩
  exact aux (List.range epochs) _

/-- With either index lookup failing, `predict_rating` is the stored global
mean. -/
theorem predict_rating_unseen (e : RecommendationEngine.State) (u i : String)
    (h : e.user_to_idx.indexOf? u = none ∨ e.item_to_idx.indexOf? i = none) :
    RecommendationEngine.predict_rating e u i = e.global_mean := by
  unfold RecommendationEngine.predict_rating
  rcases h with h | h
  · rw [h]
  · rw [h]
    cases e.user_to_idx.indexOf? u <;> rfl

/-- C4: after `fit`, `predict_rating` returns exactly the global mean rating
computed at fit time whenever the user or the item did not appear in the
fitted interaction list, and the full biased dot-product formula when both
appeared. -/
theorem claim_C4 :
    ∀ (nf : Nat) (ints : List (String × String × ℚ)) (epochs : Nat) (lr reg : ℚ)
      (uInit iInit : Nat → Nat → ℚ) (user item : String),
      ((user ∉ ints.map (fun t => t.1) ∨ item ∉ ints.map (fun t => t.2.1)) →
        RecommendationEngine.predict_rating
          (RecommendationEngine.fit nf ints epochs lr reg uInit iInit) user item =
          meanQ (ints.map (fun t => t.2.2))) ∧
      (user ∈ ints.map (fun t => t.1) → item ∈ ints.map (fun t => t.2.1) →
        ∃ ui ii,
          (RecommendationEngine.fit nf ints epochs lr reg uInit iInit).user_to_idx.indexOf?
            user = some ui ∧
          (RecommendationEngine.fit nf ints epochs lr reg uInit iInit).item_to_idx.indexOf?
            item = some ii ∧
          RecommendationEngine.predict_rating
            (RecommendationEngine.fit nf ints epochs lr reg uInit iInit) user item =
          (RecommendationEngine.fit nf ints epochs lr reg uInit iInit).global_mean +
            (RecommendationEngine.fit nf ints epochs lr reg uInit iInit).user_biases.getD ui 0 +
            (RecommendationEngine.fit nf ints epochs lr reg uInit iInit).item_biases.getD ii 0 +
            dotQ ((RecommendationEngine.fit nf ints epochs lr reg uInit iInit).user_factors.getD
                ui [])
              ((RecommendationEngine.fit nf ints epochs lr reg uInit iInit).item_factors.getD
                ii [])) := by
  intro nf ints epochs lr reg uInit iInit user item
  obtain ⟨hu, hi, hg⟩ := fit_fields nf ints epochs lr reg uInit iInit
  constructor
  · intro h
    rw [← hg]
    apply predict_rating_unseen
    rcases h with h | h
    · left
      rw [hu, indexOf?_eq_none_iff_not_mem]
      rw [mem_uniqueFirst]
      exact h
    · right
      rw [hi, indexOf?_eq_none_iff_not_mem]
      rw [mem_uniqueFirst]
      exact h
  · intro h1 h2
    have hul : user ∈ (RecommendationEngine.fit nf ints epochs lr reg uInit
        iInit).user_to_idx := by rw [hu, mem_uniqueFirst]; exact h1
    have hil : item ∈ (RecommendationEngine.fit nf ints epochs lr reg uInit
        iInit).item_to_idx := by rw [hi, mem_uniqueFirst]; exact h2
    obtain ⟨ui, hui⟩ : ∃ ui, (RecommendationEngine.fit nf ints epochs lr reg uInit
        iInit).user_to_idx.indexOf? user = some ui := by
      cases h : (RecommendationEngine.fit nf ints epochs lr reg uInit
          iInit).user_to_idx.indexOf? user with
      | none => exact absurd hul ((indexOf?_eq_none_iff_not_mem _ _).mp h)
      | some v => exact ⟨v, rfl⟩
    obtain ⟨ii, hii⟩ : ∃ ii, (RecommendationEngine.fit nf ints epochs lr reg uInit
        iInit).item_to_idx.indexOf? item = some ii := by
      cases h : (RecommendationEngine.fit nf ints epochs lr reg uInit
          iInit).item_to_idx.indexOf? item with
      | none => exact absurd hil ((indexOf?_eq_none_iff_not_mem _ _).mp h)
      | some v => exact ⟨v, rfl⟩
    refine ⟨ui, ii, hui, hii, ?_⟩
    unfold RecommendationEngine.predict_rating
    rw [hui, hii]

/-- C4 witness: `claim_C4` for the single interaction `("a", "x", 4)` and the
unseen user `"b"` — the prediction is exactly the fitted mean rating, 4. -/
theorem claim_C4_witness :
    RecommendationEngine.predict_rating
        (RecommendationEngine.fit 2 [("a", "x", 4)] 3 (1/100) (2/100)
          (fun _ _ => 0) (fun _ _ => 0)) "b" "x" =
      meanQ ([("a", "x", (4 : ℚ))].map (fun t => t.2.2)) ∧
    meanQ ([("a", "x", (4 : ℚ))].map (fun t => t.2.2)) = 4 :=
  ⟨(claim_C4 2 [("a", "x", 4)] 3 (1/100) (2/100) (fun _ _ => 0) (fun _ _ => 0)
      "b" "x").1 (Or.inl (by decide)),
   by norm_num [meanQ, sumQ]⟩

/-! ## C3 -/

namespace ModelDeploymentService

/-- Changing only the status of a record does not change which pair it
belongs to. -/
theorem matchB_set_status (env name : String) (d : Deployment) (st : DStatus) :
    matchB env name { d with status := st } = matchB env name d := rfl

/-- Changing only the metrics of a record does not change which pair it
belongs to. -/
theorem matchB_set_metrics (env name : String) (d : Deployment)
    (m : List (String × ℚ)) :
    matchB env name { d with metrics := m } = matchB env name d := rfl

/-- Two different pairs never match the same record. -/
theorem matchB_ne_pairs {env name env' name' : String} (h : ¬(env' = env ∧ name' = name))
    (d : Deployment) (hd : matchB env' name' d = true) :
    matchB env name d = false := by
  unfold matchB at hd ⊢
  simp only [Bool.and_eq_true, beq_iff_eq] at hd
  simp only [Bool.and_eq_false_iff, beq_eq_false_iff_ne]
  by_cases he : env' = env
  · exact Or.inr (fun hn => h ⟨he, by rw [← hd.2, hn]⟩)
  · exact Or.inl (fun hn => he (by rw [← hd.1, hn]))

/-- Unfolding equation of `deactFirst` when the head is the pair's active
record. -/
theorem deactFirst_cons_pos (env name : String) (d : Deployment) (ds : List Deployment)
    (h : (matchB env name d && d.status == DStatus.active) = true) :
    deactFirst env name (d :: ds) = { d with status := DStatus.inactive } :: ds := by
  simp only [deactFirst]
  rw [if_pos h]

/-- Unfolding equation of `deactFirst` when the head is not the pair's active
record. -/
theorem deactFirst_cons_neg (env name : String) (d : Deployment) (ds : List Deployment)
    (h : (matchB env name d && d.status == DStatus.active) = false) :
    deactFirst env name (d :: ds) = d :: deactFirst env name ds := by
  simp only [deactFirst]
  rw [if_neg (by rw [h]; simp)]

/-- Filtering a pair's records commutes with deactivating that pair's most
recent active record. -/
theorem filter_deactFirst_same (env name : String) (l : List Deployment) :
    (deactFirst env name l).filter (matchB env name) =
      deactFirst env name (l.filter (matchB env name)) := by
  induction l with
  | nil => rfl
  | cons d ds ih =>
      by_cases hm : matchB env name d = true
      · by_cases hs : (d.status == DStatus.active) = true
        · have hc : (matchB env name d && d.status == DStatus.active) = true := by
            rw [hm, hs]; rfl
          rw [deactFirst_cons_pos env name d ds hc,
            List.filter_cons_of_pos (by rw [matchB_set_status]; exact hm),
            List.filter_cons_of_pos hm,
            deactFirst_cons_pos env name d _ hc]
        · have hs' : (d.status == DStatus.active) = false := by simpa using hs
          have hc : (matchB env name d && d.status == DStatus.active) = false := by
            rw [hm, hs']; rfl
          rw [deactFirst_cons_neg env name d ds hc,
            List.filter_cons_of_pos hm, List.filter_cons_of_pos hm,
            deactFirst_cons_neg env name d _ hc]
          exact congrArg (List.cons d) ih
      · have hm' : matchB env name d = false := by simpa using hm
        have hc : (matchB env name d && d.status == DStatus.active) = false := by
          rw [hm']; rfl
        rw [deactFirst_cons_neg env name d ds hc,
          List.filter_cons_of_neg (by simp [hm']), List.filter_cons_of_neg (by simp [hm'])]
        exact ih

/-- Deactivating another pair's record is invisible to this pair's filter. -/
theorem filter_deactFirst_other {env name env' name' : String}
    (h : ¬(env' = env ∧ name' = name)) (l : List Deployment) :
    (deactFirst env' name' l).filter (matchB env name) = l.filter (matchB env name) := by
  induction l with
  | nil => rfl
  | cons d ds ih =>
      by_cases hm : matchB env' name' d = true
      · by_cases hs : (d.status == DStatus.active) = true
        · have hc : (matchB env' name' d && d.status == DStatus.active) = true := by
            rw [hm, hs]; rfl
          have hno : matchB env name d = false := matchB_ne_pairs h d hm
          rw [deactFirst_cons_pos env' name' d ds hc,
            List.filter_cons_of_neg (by rw [matchB_set_status]; simp [hno]),
            List.filter_cons_of_neg (by simp [hno])]
        · have hs' : (d.status == DStatus.active) = false := by simpa using hs
          have hc : (matchB env' name' d && d.status == DStatus.active) = false := by
            rw [hm, hs']; rfl
          rw [deactFirst_cons_neg env' name' d ds hc]
          by_cases hd : matchB env name d = true
          · rw [List.filter_cons_of_pos hd, List.filter_cons_of_pos hd]
            exact congrArg (List.cons d) ih
          · rw [List.filter_cons_of_neg (by simpa using hd),
              List.filter_cons_of_neg (by simpa using hd)]
            exact ih
      · have hm' : matchB env' name' d = false := by simpa using hm
        have hc : (matchB env' name' d && d.status == DStatus.active) = false := by
          rw [hm']; rfl
        rw [deactFirst_cons_neg env' name' d ds hc]
        by_cases hd : matchB env name d = true
        · rw [List.filter_cons_of_pos hd, List.filter_cons_of_pos hd]
          exact congrArg (List.cons d) ih
        · rw [List.filter_cons_of_neg (by simpa using hd),
            List.filter_cons_of_neg (by simpa using hd)]
          exact ih

/-- Unfolding equation of `markActive` at a matching head. -/
theorem markActive_cons_pos (env name : String) (d : Deployment) (ds : List Deployment)
    (h : matchB env name d = true) :
    markActive env name (d :: ds) = { d with status := DStatus.active } :: ds := by
  simp only [markActive]
  rw [if_pos h]

/-- Unfolding equation of `markActive` at a non-matching head. -/
theorem markActive_cons_neg (env name : String) (d : Deployment) (ds : List Deployment)
    (h : matchB env name d = false) :
    markActive env name (d :: ds) = d :: markActive env name ds := by
  simp only [markActive]
  rw [if_neg (by rw [h]; simp)]

/-- Filtering a pair's records commutes with reactivating that pair's
second-most-recent record. -/
theorem filter_markActive_same (env name : String) (l : List Deployment) :
    (markActive env name l).filter (matchB env name) =
      markActive env name (l.filter (matchB env name)) := by
  induction l with
  | nil => rfl
  | cons d ds ih =>
      by_cases hm : matchB env name d = true
      · rw [markActive_cons_pos env name d ds hm,
          List.filter_cons_of_pos (by rw [matchB_set_status]; exact hm),
          List.filter_cons_of_pos hm, markActive_cons_pos env name d _ hm]
      · have hm' : matchB env name d = false := by simpa using hm
        rw [markActive_cons_neg env name d ds hm',
          List.filter_cons_of_neg (by simp [hm']), List.filter_cons_of_neg (by simp [hm'])]
        exact ih

/-- Reactivating another pair's record is invisible to this pair's filter. -/
theorem filter_markActive_other {env name env' name' : String}
    (h : ¬(env' = env ∧ name' = name)) (l : List Deployment) :
    (markActive env' name' l).filter (matchB env name) = l.filter (matchB env name) := by
  induction l with
  | nil => rfl
  | cons d ds ih =>
      by_cases hm : matchB env' name' d = true
      · have hno : matchB env name d = false := matchB_ne_pairs h d hm
        rw [markActive_cons_pos env' name' d ds hm,
          List.filter_cons_of_neg (by rw [matchB_set_status]; simp [hno]),
          List.filter_cons_of_neg (by simp [hno])]
      · have hm' : matchB env' name' d = false := by simpa using hm
        rw [markActive_cons_neg env' name' d ds hm']
        by_cases hd : matchB env name d = true
        · rw [List.filter_cons_of_pos hd, List.filter_cons_of_pos hd]
          exact congrArg (List.cons d) ih
        · rw [List.filter_cons_of_neg (by simpa using hd),
            List.filter_cons_of_neg (by simpa using hd)]
          exact ih

/-- Unfolding equation of `markRolled` at a matching head. -/
theorem markRolled_cons_pos (env name : String) (d : Deployment) (ds : List Deployment)
    (h : matchB env name d = true) :
    markRolled env name (d :: ds) =
      { d with status := DStatus.rolled_back } :: markActive env name ds := by
  simp only [markRolled]
  rw [if_pos h]

/-- Unfolding equation of `markRolled` at a non-matching head. -/
theorem markRolled_cons_neg (env name : String) (d : Deployment) (ds : List Deployment)
    (h : matchB env name d = false) :
    markRolled env name (d :: ds) = d :: markRolled env name ds := by
  simp only [markRolled]
  rw [if_neg (by rw [h]; simp)]

/-- Filtering a pair's records commutes with the rollback marking of that
pair. -/
theorem filter_markRolled_same (env name : String) (l : List Deployment) :
    (markRolled env name l).filter (matchB env name) =
      markRolled env name (l.filter (matchB env name)) := by
  induction l with
  | nil => rfl
  | cons d ds ih =>
      by_cases hm : matchB env name d = true
      · rw [markRolled_cons_pos env name d ds hm,
          List.filter_cons_of_pos (by rw [matchB_set_status]; exact hm),
          List.filter_cons_of_pos hm, markRolled_cons_pos env name d _ hm]
        exact congrArg (List.cons _) (filter_markActive_same env name ds)
      · have hm' : matchB env name d = false := by simpa using hm
        rw [markRolled_cons_neg env name d ds hm',
          List.filter_cons_of_neg (by simp [hm']), List.filter_cons_of_neg (by simp [hm'])]
        exact ih

/-- The rollback marking of another pair is invisible to this pair's
filter. -/
theorem filter_markRolled_other {env name env' name' : String}
    (h : ¬(env' = env ∧ name' = name)) (l : List Deployment) :
    (markRolled env' name' l).filter (matchB env name) = l.filter (matchB env name) := by
  induction l with
  | nil => rfl
  | cons d ds ih =>
      by_cases hm : matchB env' name' d = true
      · have hno : matchB env name d = false := matchB_ne_pairs h d hm
        rw [markRolled_cons_pos env' name' d ds hm,
          List.filter_cons_of_neg (by rw [matchB_set_status]; simp [hno]),
          List.filter_cons_of_neg (by simp [hno])]
        exact filter_markActive_other h ds
      · have hm' : matchB env' name' d = false := by simpa using hm
        rw [markRolled_cons_neg env' name' d ds hm']
        by_cases hd : matchB env name d = true
        · rw [List.filter_cons_of_pos hd, List.filter_cons_of_pos hd]
          exact congrArg (List.cons d) ih
        · rw [List.filter_cons_of_neg (by simpa using hd),
            List.filter_cons_of_neg (by simpa using hd)]
          exact ih

/-- Unfolding equation of `updMetricsFirst` at the pair's active head. -/
theorem updMetricsFirst_cons_pos (env name : String) (m : List (String × ℚ))
    (d : Deployment) (ds : List Deployment)
    (h : (matchB env name d && d.status == DStatus.active) = true) :
    updMetricsFirst env name m (d :: ds) =
      { d with metrics := dictUpdate d.metrics m } :: ds := by
  simp only [updMetricsFirst]
  rw [if_pos h]

/-- Unfolding equation of `updMetricsFirst` at any other head. -/
theorem updMetricsFirst_cons_neg (env name : String) (m : List (String × ℚ))
    (d : Deployment) (ds : List Deployment)
    (h : (matchB env name d && d.status == DStatus.active) = false) :
    updMetricsFirst env name m (d :: ds) = d :: updMetricsFirst env name m ds := by
  simp only [updMetricsFirst]
  rw [if_neg (by rw [h]; simp)]

/-- Filtering a pair's records commutes with that pair's metrics update. -/
theorem filter_updMetricsFirst_same (env name : String) (m : List (String × ℚ))
    (l : List Deployment) :
    (updMetricsFirst env name m l).filter (matchB env name) =
      updMetricsFirst env name m (l.filter (matchB env name)) := by
  induction l with
  | nil => rfl
  | cons d ds ih =>
      by_cases hm : matchB env name d = true
      · by_cases hs : (d.status == DStatus.active) = true
        · have hc : (matchB env name d && d.status == DStatus.active) = true := by
            rw [hm, hs]; rfl
          rw [updMetricsFirst_cons_pos env name m d ds hc,
            List.filter_cons_of_pos (by rw [matchB_set_metrics]; exact hm),
            List.filter_cons_of_pos hm, updMetricsFirst_cons_pos env name m d _ hc]
        · have hs' : (d.status == DStatus.active) = false := by simpa using hs
          have hc : (matchB env name d && d.status == DStatus.active) = false := by
            rw [hm, hs']; rfl
          rw [updMetricsFirst_cons_neg env name m d ds hc,
            List.filter_cons_of_pos hm, List.filter_cons_of_pos hm,
            updMetricsFirst_cons_neg env name m d _ hc]
          exact congrArg (List.cons d) ih
      · have hm' : matchB env name d = false := by simpa using hm
        have hc : (matchB env name d && d.status == DStatus.active) = false := by
          rw [hm']; rfl
        rw [updMetricsFirst_cons_neg env name m d ds hc,
          List.filter_cons_of_neg (by simp [hm']), List.filter_cons_of_neg (by simp [hm'])]
        exact ih

/-- Another pair's metrics update is invisible to this pair's filter. -/
theorem filter_updMetricsFirst_other {env name env' name' : String}
    (m : List (String × ℚ)) (h : ¬(env' = env ∧ name' = name)) (l : List Deployment) :
    (updMetricsFirst env' name' m l).filter (matchB env name) =
      l.filter (matchB env name) := by
  induction l with
  | nil => rfl
  | cons d ds ih =>
      by_cases hm : matchB env' name' d = true
      · by_cases hs : (d.status == DStatus.active) = true
        · have hc : (matchB env' name' d && d.status == DStatus.active) = true := by
            rw [hm, hs]; rfl
          have hno : matchB env name d = false := matchB_ne_pairs h d hm
          rw [updMetricsFirst_cons_pos env' name' m d ds hc,
            List.filter_cons_of_neg (by rw [matchB_set_metrics]; simp [hno]),
            List.filter_cons_of_neg (by simp [hno])]
        · have hs' : (d.status == DStatus.active) = false := by simpa using hs
          have hc : (matchB env' name' d && d.status == DStatus.active) = false := by
            rw [hm, hs']; rfl
          rw [updMetricsFirst_cons_neg env' name' m d ds hc]
          by_cases hd : matchB env name d = true
          · rw [List.filter_cons_of_pos hd, List.filter_cons_of_pos hd]
            exact congrArg (List.cons d) ih
          · rw [List.filter_cons_of_neg (by simpa using hd),
              List.filter_cons_of_neg (by simpa using hd)]
            exact ih
      · have hm' : matchB env' name' d = false := by simpa using hm
        have hc : (matchB env' name' d && d.status == DStatus.active) = false := by
          rw [hm']; rfl
        rw [updMetricsFirst_cons_neg env' name' m d ds hc]
        by_cases hd : matchB env name d = true
        · rw [List.filter_cons_of_pos hd, List.filter_cons_of_pos hd]
          exact congrArg (List.cons d) ih
        · rw [List.filter_cons_of_neg (by simpa using hd),
            List.filter_cons_of_neg (by simpa using hd)]
          exact ih

/-- `activeCount` of a cons. -/
theorem activeCount_cons (d : Deployment) (ds : List Deployment) :
    activeCount (d :: ds) =
      (if d.status == DStatus.active then 1 else 0) + activeCount ds := by
  unfold activeCount
  by_cases h : (d.status == DStatus.active) = true
  · simp [List.filter_cons, h]
    omega
  · simp [List.filter_cons, h]

/-- `activeCount` vanishes exactly on lists with no active record. -/
theorem activeCount_eq_zero_iff (l : List Deployment) :
    activeCount l = 0 ↔ ∀ d ∈ l, d.status ≠ DStatus.active := by
  unfold activeCount
  rw [List.length_eq_zero, List.filter_eq_nil_iff]
  constructor
  · intro h d hd e
    exact h d hd (by rw [e]; rfl)
  · intro h d hd hb
    exact h d hd (by simpa using hb)

/-- Deactivating the most recent active record of an everywhere-matching list
with at most one active record leaves no active record. -/
theorem activeCount_deactFirst (env name : String) (l : List Deployment)
    (hall : ∀ d ∈ l, matchB env name d = true) (hc : activeCount l ≤ 1) :
    activeCount (deactFirst env name l) = 0 := by
  induction l with
  | nil => rfl
  | cons d ds ih =>
      have hm : matchB env name d = true := hall d (List.mem_cons_self d ds)
      by_cases hs : (d.status == DStatus.active) = true
      · have hzero : activeCount ds = 0 := by
          rw [activeCount_cons, if_pos hs] at hc
          omega
        rw [deactFirst_cons_pos env name d ds (by rw [hm, hs]; rfl), activeCount_cons]
        simpa using hzero
      · have hs' : (d.status == DStatus.active) = false := by simpa using hs
        rw [deactFirst_cons_neg env name d ds (by rw [hm, hs']; rfl), activeCount_cons,
          if_neg hs]
        rw [activeCount_cons, if_neg hs] at hc
        rw [ih (fun q hq => hall q (List.mem_cons_of_mem d hq)) (by omega)]

/-- Deploy transition on one pair's newest-first records: prepending the new
active record after deactivation yields exactly one active record — the new
one — and restores the invariant shape. -/
theorem RGood_deploy (env name : String) (rr : List Deployment)
    (hall : ∀ d ∈ rr, matchB env name d = true) (hg : RGood rr) (new : Deployment) :
    activeCount (new :: deactFirst env name rr) =
      (if new.status == DStatus.active then 1 else 0) ∧
    RGood (new :: deactFirst env name rr) := by
  have h0 : activeCount (deactFirst env name rr) = 0 :=
    activeCount_deactFirst env name rr hall hg.1
  have hcount : activeCount (new :: deactFirst env name rr) =
      (if new.status == DStatus.active then 1 else 0) := by
    rw [activeCount_cons, h0, Nat.add_zero]
  refine ⟨hcount, ?_, ?_⟩
  · rw [hcount]
    split <;> omega
  · intro d hd
    rw [List.drop_succ_cons] at hd
    exact (activeCount_eq_zero_iff _).mp h0 d (List.mem_of_mem_drop hd)

/-- Rollback transition on one pair's newest-first records (length at least
two): marking the most recent `rolled_back` and the second `active` restores
the invariant shape. -/
theorem RGood_markRolled (env name : String) (rr : List Deployment)
    (hall : ∀ d ∈ rr, matchB env name d = true) (hlen : 2 ≤ rr.length)
    (hg : RGood rr) : RGood (markRolled env name rr) := by
  match rr, hlen with
  | d1 :: d2 :: rest, _ =>
    have hm1 : matchB env name d1 = true := hall d1 (by simp)
    have hm2 : matchB env name d2 = true := hall d2 (by simp)
    have hrest : ∀ d ∈ rest, d.status ≠ DStatus.active := by
      intro d hd
      exact hg.2 d (by simpa [List.drop_succ_cons] using hd)
    rw [markRolled_cons_pos env name d1 _ hm1, markActive_cons_pos env name d2 _ hm2]
    constructor
    · rw [activeCount_cons, activeCount_cons]
      have h1 : (({ d1 with status := DStatus.rolled_back } :
          Deployment).status == DStatus.active) = false := by rfl
      have h2 : (({ d2 with status := DStatus.active } :
          Deployment).status == DStatus.active) = true := by rfl
      rw [h1, h2, if_neg (by simp), if_pos rfl,
        (activeCount_eq_zero_iff rest).mpr hrest]
    · intro d hd
      rw [List.drop_succ_cons, List.drop_succ_cons, List.drop_zero] at hd
      exact hrest d hd

/-- A metrics update never changes any record's status. -/
theorem updMetricsFirst_statuses (env name : String) (m : List (String × ℚ))
    (l : List Deployment) :
    (updMetricsFirst env name m l).map (fun d => d.status) =
      l.map (fun d => d.status) := by
  induction l with
  | nil => rfl
  | cons d ds ih =>
      by_cases hc : (matchB env name d && d.status == DStatus.active) = true
      · rw [updMetricsFirst_cons_pos env name m d ds hc]
        rfl
      · rw [updMetricsFirst_cons_neg env name m d ds (by simpa using hc), List.map_cons,
          List.map_cons, ih]

/-- `RGood` only looks at statuses. -/
theorem RGood_of_statuses {l₁ l₂ : List Deployment}
    (h : l₁.map (fun d => d.status) = l₂.map (fun d => d.status)) (hg : RGood l₂) :
    RGood l₁ := by
  have hcount : activeCount l₁ = activeCount l₂ := by
    unfold activeCount
    rw [← List.countP_eq_length_filter, ← List.countP_eq_length_filter]
    have e1 : List.countP (fun st => st == DStatus.active) (l₁.map (fun d => d.status)) =
        List.countP ((fun st => st == DStatus.active) ∘ (fun d : Deployment => d.status)) l₁ :=
      List.countP_map (fun st => st == DStatus.active) (fun d : Deployment => d.status) l₁
    have e2 : List.countP (fun st => st == DStatus.active) (l₂.map (fun d => d.status)) =
        List.countP ((fun st => st == DStatus.active) ∘ (fun d : Deployment => d.status)) l₂ :=
      List.countP_map (fun st => st == DStatus.active) (fun d : Deployment => d.status) l₂
    calc List.countP (fun d => d.status == DStatus.active) l₁
        = List.countP ((fun st => st == DStatus.active) ∘
            (fun d : Deployment => d.status)) l₁ := rfl
      _ = List.countP (fun st => st == DStatus.active) (l₁.map (fun d => d.status)) := e1.symm
      _ = List.countP (fun st => st == DStatus.active) (l₂.map (fun d => d.status)) := by rw [h]
      _ = List.countP ((fun st => st == DStatus.active) ∘
            (fun d : Deployment => d.status)) l₂ := e2
      _ = List.countP (fun d => d.status == DStatus.active) l₂ := rfl
  constructor
  · rw [hcount]; exact hg.1
  · intro d hd
    have : d.status ∈ (l₁.drop 2).map (fun d => d.status) := List.mem_map_of_mem _ hd
    rw [List.map_drop, h, ← List.map_drop] at this
    obtain ⟨e, he, hes⟩ := List.mem_map.mp this
    rw [← hes]
    exact hg.2 e he

/-- A fresh record belongs to the pair it was deployed for. -/
theorem matchB_mkDeployment_same (name v env ep now : String) :
    matchB env name (mkDeployment name v env ep now) = true := by
  simp [matchB, mkDeployment]

/-- A fresh record belongs to no other pair. -/
theorem matchB_mkDeployment_other {env name env' name' : String}
    (hp : ¬(env' = env ∧ name' = name)) (v ep now : String) :
    matchB env name (mkDeployment name' v env' ep now) = false := by
  simp only [matchB, mkDeployment]
  simp only [Bool.and_eq_false_iff, beq_eq_false_iff_ne]
  by_cases he : env' = env
  · exact Or.inr (fun hn => hp ⟨he, hn⟩)
  · exact Or.inl he

/-- Every store reachable by `deploy_model` / `rollback_deployment` /
`update_metrics` calls satisfies the per-pair invariant. -/
theorem reachable_inv {s : Store} (h : Reachable s) : Inv s := by
  induction h with
  | nil =>
      intro env name
      refine ⟨?_, ?_⟩ <;> simp [activeCount]
  | @deploy mn v env' ep now s hr ih =>
      intro env name
      have hrev : (deploy_model mn v env' ep now s).reverse =
          mkDeployment mn v env' ep now :: deactFirst env' mn s.reverse := by
        simp [deploy_model, List.reverse_append]
      rw [hrev]
      by_cases hp : env' = env ∧ mn = name
      · obtain ⟨he, hn⟩ := hp
        subst he
        subst hn
        rw [List.filter_cons_of_pos (by rw [matchB_mkDeployment_same]),
          filter_deactFirst_same]
        exact (RGood_deploy env' mn _ (fun d hd => List.of_mem_filter hd)
          (ih env' mn) _).2
      · rw [List.filter_cons_of_neg (by rw [matchB_mkDeployment_other hp]; simp),
          filter_deactFirst_other hp]
        exact ih env name
  | @rollback env' name' s hr ih =>
      intro env name
      unfold rollback_deployment
      by_cases hl : (sub env' name' s).length < 2
      · rw [if_pos hl]
        exact ih env name
      · rw [if_neg hl, List.reverse_reverse]
        by_cases hp : env' = env ∧ name' = name
        · obtain ⟨he, hn⟩ := hp
          subst he
          subst hn
          rw [filter_markRolled_same]
          refine RGood_markRolled env' name' _ (fun d hd => List.of_mem_filter hd) ?_
            (ih env' name')
          rw [List.filter_reverse, List.length_reverse]
          unfold sub at hl
          omega
        · rw [filter_markRolled_other hp]
          exact ih env name
  | @update env' name' m s hr ih =>
      intro env name
      unfold update_metrics
      rw [List.reverse_reverse]
      by_cases hp : env' = env ∧ name' = name
      · obtain ⟨he, hn⟩ := hp
        subst he
        subst hn
        rw [filter_updMetricsFirst_same]
        exact RGood_of_statuses (updMetricsFirst_statuses env' name' m _) (ih env' name')
      · rw [filter_updMetricsFirst_other m hp]
        exact ih env name

end ModelDeploymentService

namespace ModelDeploymentService

/-- `activeCount` of a pair's records can be read off the reversed store. -/
theorem activeCount_sub_eq (env name : String) (s : Store) :
    activeCount (sub env name s) = activeCount (s.reverse.filter (matchB env name)) := by
  unfold activeCount sub
  rw [List.filter_reverse, List.filter_reverse, List.length_reverse]

/-- C3: in every store reachable from the empty store by any sequence of
`deploy_model`, `rollback_deployment` and `update_metrics` calls, at most one
deployment record per (environment, model name) pair is `active`; and
immediately after a `deploy_model` call the pair has exactly one active
record — the record just appended, which is created `active`. -/
theorem claim_C3 :
    ∀ s : Store, Reachable s →
      (∀ env name : String, activeCount (sub env name s) ≤ 1) ∧
      (∀ model_name version env endpoint now : String,
        activeCount (sub env model_name
          (deploy_model model_name version env endpoint now s)) = 1 ∧
        (sub env model_name
            (deploy_model model_name version env endpoint now s)).getLast? =
          some (mkDeployment model_name version env endpoint now) ∧
        (mkDeployment model_name version env endpoint now).status = DStatus.active) := by
  intro s hs
  have hinv := reachable_inv hs
  constructor
  · intro env name
    rw [activeCount_sub_eq]
    exact (hinv env name).1
  · intro mn v env ep now
    have hrev : (deploy_model mn v env ep now s).reverse =
        mkDeployment mn v env ep now :: deactFirst env mn s.reverse := by
      simp [deploy_model, List.reverse_append]
    have hsub : sub env mn (deploy_model mn v env ep now s) =
        (deactFirst env mn (s.reverse.filter (matchB env mn))).reverse ++
          [mkDeployment mn v env ep now] := by
      unfold sub
      rw [show (deploy_model mn v env ep now s).filter (matchB env mn) =
          ((deploy_model mn v env ep now s).reverse.filter (matchB env mn)).reverse from by
        rw [List.filter_reverse, List.reverse_reverse]]
      rw [hrev, List.filter_cons_of_pos (by rw [matchB_mkDeployment_same]),
        filter_deactFirst_same, List.reverse_cons]
    refine ⟨?_, ?_, rfl⟩
    · rw [activeCount_sub_eq, hrev,
        List.filter_cons_of_pos (by rw [matchB_mkDeployment_same]),
        filter_deactFirst_same]
      rw [(RGood_deploy env mn (s.reverse.filter (matchB env mn))
        (fun d hd => List.of_mem_filter hd) (hinv env mn)
        (mkDeployment mn v env ep now)).1]
      rfl
    · rw [hsub]
      exact List.getLast?_concat _

/-- C3 witness: `claim_C3` applied to the empty store (reachable by the empty
call sequence) and one concrete deployment. -/
theorem claim_C3_witness :
    Reachable ([] : Store) ∧
    activeCount (sub "prod" "m" (deploy_model "m" "1.0" "prod" "ep" "t0" [])) = 1 ∧
    (sub "prod" "m" (deploy_model "m" "1.0" "prod" "ep" "t0" [])).getLast? =
      some (mkDeployment "m" "1.0" "prod" "ep" "t0") :=
  ⟨Reachable.nil,
   ((claim_C3 [] Reachable.nil).2 "m" "1.0" "prod" "ep" "t0").1,
   ((claim_C3 [] Reachable.nil).2 "m" "1.0" "prod" "ep" "t0").2.1⟩

end ModelDeploymentService
